import Mathlib

/-!
A shallow embedding of the CPU-side batching engine of `src/rlgl.c`
(raylib OpenGL abstraction layer), restricted to the
`GRAPHICS_API_OPENGL_33` / `GRAPHICS_API_OPENGL_ES2` code path, which is
the batching core the specification describes.

Modelling conventions:
* C `float` values are modelled as exact rationals (`ℚ`); none of the
  verified properties depends on floating-point rounding.
* C arrays are modelled as total functions `ℤ → _` together with the
  counters the source keeps.  An index outside the allocated range
  corresponds to memory outside the array: reads there return whatever
  the initial heap (`junk` parameter) holds, and writes there model
  out-of-bounds writes of the C program.
* `TraceLog` is embedded from the in-repository definition
  (`rlgl.c` lines 2906-2926): a message of severity `ERROR` terminates
  the process (`exit(1)`).  Termination is modelled by an `exited` flag;
  once it is set every subsequent operation leaves the state unchanged,
  matching the fact that a dead process performs no further calls.
* The constants `MAX_LINES_BATCH`, `MAX_TRIANGLES_BATCH` and
  `MAX_QUADS_BATCH` live in the missing header `rlgl.h`; they are kept
  as parameters (`Cfg`).  `MATRIX_STACK_SIZE = 16` and
  `MAX_DRAWS_BY_TEXTURE = 256` are defined in `rlgl.c` itself.
-/

namespace Rlgl

/-- Log severities, from the `TraceLogType` enum in `rlgl.c`. -/
inductive LogType where
  | INFO
  | ERROR
  | WARNING
  | DEBUG
  | OTHER
deriving DecidableEq, Repr

/-- Draw modes accepted by `rlBegin`. -/
inductive DrawMode where
  | RL_LINES
  | RL_TRIANGLES
  | RL_QUADS
deriving DecidableEq, Repr

/-- Matrix modes accepted by `rlMatrixMode` (`RL_TEXTURE` is not
supported by the 3.3/ES2 path and is omitted). -/
inductive MatrixMode where
  | RL_PROJECTION
  | RL_MODELVIEW
deriving DecidableEq, Repr

/-- A 3-component vector (raymath `Vector3`), components as exact
rationals. -/
structure Vec3 where
  x : ℚ
  y : ℚ
  z : ℚ
deriving DecidableEq, Repr

/-- A 4x4 matrix in the raymath field layout. -/
structure Matrix where
  m0 : ℚ
  m4 : ℚ
  m8 : ℚ
  m12 : ℚ
  m1 : ℚ
  m5 : ℚ
  m9 : ℚ
  m13 : ℚ
  m2 : ℚ
  m6 : ℚ
  m10 : ℚ
  m14 : ℚ
  m3 : ℚ
  m7 : ℚ
  m11 : ℚ
  m15 : ℚ
deriving DecidableEq, Repr

/-- Modelled from the spec: the linear-algebra service's `identity()`
(raymath's `MatrixIdentity`, whose source `raymath.h` is not under
`src/`). -/
def MatrixIdentity : Matrix :=
  ⟨1, 0, 0, 0, 0, 1, 0, 0, 0, 0, 1, 0, 0, 0, 0, 1⟩

/-- Modelled from the spec: the linear-algebra service's
`transformPoint(point, matrix)` (raymath's `VectorTransform`, whose
source `raymath.h` is not under `src/`): the standard affine action of a
4x4 matrix on a 3-D point. -/
def VectorTransform (m : Matrix) (v : Vec3) : Vec3 :=
  ⟨m.m0 * v.x + m.m4 * v.y + m.m8 * v.z + m.m12,
   m.m1 * v.x + m.m5 * v.y + m.m9 * v.z + m.m13,
   m.m2 * v.x + m.m6 * v.y + m.m10 * v.z + m.m14⟩

/-- One draw-call ledger entry (`DrawCall` struct in `rlgl.c`):
a texture handle and the number of quad vertices drawn with it. -/
structure DrawCall where
  textureId : ℕ
  vertexCount : ℕ
deriving DecidableEq, Repr

/-- Vertex buffer for lines and triangles
(`VertexPositionColorBuffer`): position and color arrays with
independent counters. -/
structure VertexColorBuf where
  vCounter : ℕ
  cCounter : ℕ
  vertices : ℤ → ℚ
  colors : ℤ → ℕ

/-- Vertex buffer for quads (`VertexPositionColorTextureIndexBuffer`):
position, texcoord and color arrays with independent counters.  The one
precomputed index array is modelled separately by `loadQuadIndices`. -/
structure QuadsBuf where
  vCounter : ℕ
  tcCounter : ℕ
  cCounter : ℕ
  vertices : ℤ → ℚ
  texcoords : ℤ → ℚ
  colors : ℤ → ℕ

/-- Matrix stack max size (`MATRIX_STACK_SIZE` in `rlgl.c`). -/
def MATRIX_STACK_SIZE : ℕ := 16

/-- Maximum number of draw-call ledger entries
(`MAX_DRAWS_BY_TEXTURE` in `rlgl.c`). -/
def MAX_DRAWS_BY_TEXTURE : ℕ := 256

/-- Size of the temp (deferred staging) vertex buffer
(`TEMP_VERTEX_BUFFER_SIZE` in `rlgl.c`). -/
def TEMP_VERTEX_BUFFER_SIZE : ℕ := 4096

/-- Modelled from the spec: the per-topology batch capacities
`MAX_LINES_BATCH`, `MAX_TRIANGLES_BATCH`, `MAX_QUADS_BATCH` are fixed
positive constants defined in the missing header `rlgl.h`; they are
kept as parameters. -/
structure Cfg where
  MAX_LINES_BATCH : ℕ
  MAX_TRIANGLES_BATCH : ℕ
  MAX_QUADS_BATCH : ℕ
deriving DecidableEq, Repr

/-- The global mutable state of the batching module
(the `static` variables of `rlgl.c` that the core manipulates),
plus the `exited` process-termination flag and the trace log. -/
structure GlState where
  exited : Bool
  log : List (LogType × String)
  stackCounter : ℤ
  stack : ℤ → Matrix
  modelview : Matrix
  projection : Matrix
  currentMatrixMode : MatrixMode
  currentDrawMode : DrawMode
  currentDepth : ℚ
  lines : VertexColorBuf
  triangles : VertexColorBuf
  quads : QuadsBuf
  draws : ℤ → DrawCall
  drawsCounter : ℕ
  tempBuffer : ℕ → Vec3
  tempBufferCount : ℕ
  useTempBuffer : Bool
  whiteTexture : ℕ

/-- The matrix `*currentMatrix` points to (`&projection` or
`&modelview`, selected by `rlMatrixMode`). -/
def currentMatrixVal (s : GlState) : Matrix :=
  match s.currentMatrixMode with
  | .RL_PROJECTION => s.projection
  | .RL_MODELVIEW => s.modelview

/-- Write through the `currentMatrix` pointer. -/
def setCurrentMatrix (s : GlState) (m : Matrix) : GlState :=
  match s.currentMatrixMode with
  | .RL_PROJECTION => { s with projection := m }
  | .RL_MODELVIEW => { s with modelview := m }

/-- The in-repository `TraceLog` (`rlgl.c` lines 2906-2926): prints the
message and calls `exit(1)` when the severity is `ERROR`. -/
def traceLog (t : LogType) (msg : String) (s : GlState) : GlState :=
  if s.exited then s
  else if t = .ERROR then { s with log := s.log ++ [(t, msg)], exited := true }
  else { s with log := s.log ++ [(t, msg)] }

/-- A zero-initialized `VertexColorBuf` whose color array holds `junk`
outside the allocated range `[0, 4 * vcap)` (positions outside
`[0, 3 * vcap)` likewise); `vcap` is the vertex capacity of the
buffer.  Mirrors the CPU part of `LoadDefaultBuffers`. -/
def freshVCBuf (vcap : ℕ) (junk : ℤ → ℕ) (junkF : ℤ → ℚ) : VertexColorBuf where
  vCounter := 0
  cCounter := 0
  vertices := fun j => if 0 ≤ j ∧ j < 3 * (vcap : ℤ) then 0 else junkF j
  colors := fun j => if 0 ≤ j ∧ j < 4 * (vcap : ℤ) then 0 else junk j

/-- A zero-initialized `QuadsBuf` with junk outside the allocated
ranges; `vcap` is the vertex capacity `4 * MAX_QUADS_BATCH`. -/
def freshQuadsBuf (vcap : ℕ) (junk : ℤ → ℕ) (junkF : ℤ → ℚ) : QuadsBuf where
  vCounter := 0
  tcCounter := 0
  cCounter := 0
  vertices := fun j => if 0 ≤ j ∧ j < 3 * (vcap : ℤ) then 0 else junkF j
  texcoords := fun j => if 0 ≤ j ∧ j < 2 * (vcap : ℤ) then 0 else junkF j
  colors := fun j => if 0 ≤ j ∧ j < 4 * (vcap : ℤ) then 0 else junk j

/-- The state right after `rlglInit` + `LoadDefaultBuffers`
(`rlgl.c` lines 1000-1041 and 2468-2525), given the white-texture
handle returned by `rlglLoadTexture` and the contents of the heap
outside the allocated arrays (`junk`, `junkF`).  The initial matrix
mode is modelled as `RL_MODELVIEW`, consistent with
`currentMatrix = &modelview` set by `rlglInit`. -/
def initialState (cfg : Cfg) (white : ℕ) (junk : ℤ → ℕ) (junkF : ℤ → ℚ) :
    GlState where
  exited := false
  log := []
  stackCounter := 0
  stack := fun _ => MatrixIdentity
  modelview := MatrixIdentity
  projection := MatrixIdentity
  currentMatrixMode := .RL_MODELVIEW
  currentDrawMode := .RL_TRIANGLES
  currentDepth := -1
  lines := freshVCBuf (2 * cfg.MAX_LINES_BATCH) junk junkF
  triangles := freshVCBuf (3 * cfg.MAX_TRIANGLES_BATCH) junk junkF
  quads := freshQuadsBuf (4 * cfg.MAX_QUADS_BATCH) junk junkF
  draws := Function.update (fun _ => ⟨0, 0⟩) 0 ⟨white, 0⟩
  drawsCounter := 1
  tempBuffer := fun _ => ⟨0, 0, 0⟩
  tempBufferCount := 0
  useTempBuffer := false
  whiteTexture := white

/-- Choose the current matrix to be transformed (`rlMatrixMode`). -/
def rlMatrixMode (mode : MatrixMode) (s : GlState) : GlState :=
  if s.exited then s else { s with currentMatrixMode := mode }

/-- Reset current matrix to identity matrix (`rlLoadIdentity`). -/
def rlLoadIdentity (s : GlState) : GlState :=
  if s.exited then s else setCurrentMatrix s MatrixIdentity

/-- Push the current matrix to stack (`rlPushMatrix`).  At
`stackCounter == MATRIX_STACK_SIZE - 1` the source calls
`TraceLog(ERROR, ...)`, which exits the process, so the statements
after it never run. -/
def rlPushMatrix (s : GlState) : GlState :=
  if s.exited then s
  else if s.stackCounter = (MATRIX_STACK_SIZE : ℤ) - 1 then
    traceLog .ERROR "Stack Buffer Overflow (MAX 16 Matrix)" s
  else
    let s1 := { s with stack := Function.update s.stack s.stackCounter (currentMatrixVal s) }
    let s2 := setCurrentMatrix s1 MatrixIdentity
    let s3 := { s2 with stackCounter := s2.stackCounter + 1 }
    if s3.currentMatrixMode = .RL_MODELVIEW then { s3 with useTempBuffer := true } else s3

/-- Pop the latest inserted matrix from stack (`rlPopMatrix`). -/
def rlPopMatrix (s : GlState) : GlState :=
  if s.exited then s
  else if 0 < s.stackCounter then
    let s1 := setCurrentMatrix s (s.stack (s.stackCounter - 1))
    { s1 with stackCounter := s1.stackCounter - 1 }
  else s

/-- Initialize drawing mode (`rlBegin`). -/
def rlBegin (mode : DrawMode) (s : GlState) : GlState :=
  if s.exited then s else { s with currentDrawMode := mode }

/-- Write the three position components of one vertex at slot
`v` of a position array. -/
def writeVertex3 (f : ℤ → ℚ) (v : ℕ) (x y z : ℚ) : ℤ → ℚ :=
  Function.update (Function.update (Function.update f
    (3 * (v : ℤ)) x) (3 * (v : ℤ) + 1) y) (3 * (v : ℤ) + 2) z

/-- Define one vertex position (`rlVertex3f`).  While `useTempBuffer`
is raised the point goes to the staging buffer; otherwise it is
appended to the buffer selected by `currentDrawMode`, subject to the
per-topology capacity check, whose failure logs at `ERROR` severity
(and thereby exits). -/
def rlVertex3f (cfg : Cfg) (x y z : ℚ) (s : GlState) : GlState :=
  if s.exited then s
  else if s.useTempBuffer then
    { s with
      tempBuffer := Function.update s.tempBuffer s.tempBufferCount ⟨x, y, z⟩
      tempBufferCount := s.tempBufferCount + 1 }
  else
    match s.currentDrawMode with
    | .RL_LINES =>
      if s.lines.vCounter / 2 < cfg.MAX_LINES_BATCH then
        { s with lines := { s.lines with
            vertices := writeVertex3 s.lines.vertices s.lines.vCounter x y z
            vCounter := s.lines.vCounter + 1 } }
      else traceLog .ERROR "MAX_LINES_BATCH overflow" s
    | .RL_TRIANGLES =>
      if s.triangles.vCounter / 3 < cfg.MAX_TRIANGLES_BATCH then
        { s with triangles := { s.triangles with
            vertices := writeVertex3 s.triangles.vertices s.triangles.vCounter x y z
            vCounter := s.triangles.vCounter + 1 } }
      else traceLog .ERROR "MAX_TRIANGLES_BATCH overflow" s
    | .RL_QUADS =>
      if s.quads.vCounter / 4 < cfg.MAX_QUADS_BATCH then
        let idx := (s.drawsCounter : ℤ) - 1
        let cur := s.draws idx
        { s with
          quads := { s.quads with
            vertices := writeVertex3 s.quads.vertices s.quads.vCounter x y z
            vCounter := s.quads.vCounter + 1 }
          draws := Function.update s.draws idx { cur with vertexCount := cur.vertexCount + 1 } }
      else traceLog .ERROR "MAX_QUADS_BATCH overflow" s

/-- Write the four bytes of one color at slot `c` of a color array. -/
def writeColor4 (f : ℤ → ℕ) (c : ℕ) (r g b a : ℕ) : ℤ → ℕ :=
  Function.update (Function.update (Function.update (Function.update f
    (4 * (c : ℤ)) r) (4 * (c : ℤ) + 1) g) (4 * (c : ℤ) + 2) b) (4 * (c : ℤ) + 3) a

/-- Define one vertex color (`rlColor4ub`): appended to the color array
of the buffer selected by `currentDrawMode` (no capacity check in the
source). -/
def rlColor4ub (r g b a : ℕ) (s : GlState) : GlState :=
  if s.exited then s
  else
    match s.currentDrawMode with
    | .RL_LINES =>
      { s with lines := { s.lines with
          colors := writeColor4 s.lines.colors s.lines.cCounter r g b a
          cCounter := s.lines.cCounter + 1 } }
    | .RL_TRIANGLES =>
      { s with triangles := { s.triangles with
          colors := writeColor4 s.triangles.colors s.triangles.cCounter r g b a
          cCounter := s.triangles.cCounter + 1 } }
    | .RL_QUADS =>
      { s with quads := { s.quads with
          colors := writeColor4 s.quads.colors s.quads.cCounter r g b a
          cCounter := s.quads.cCounter + 1 } }

/-- Define one vertex texture coordinate (`rlTexCoord2f`): quads
topology only, ignored otherwise. -/
def rlTexCoord2f (u v : ℚ) (s : GlState) : GlState :=
  if s.exited then s
  else
    match s.currentDrawMode with
    | .RL_QUADS =>
      { s with quads := { s.quads with
          texcoords := Function.update (Function.update s.quads.texcoords
            (2 * (s.quads.tcCounter : ℤ)) u) (2 * (s.quads.tcCounter : ℤ) + 1) v
          tcCounter := s.quads.tcCounter + 1 } }
    | _ => s

/-- One iteration of the color-reconciliation loop in `rlEnd`: copy the
four bytes at slots `4*c - 4 .. 4*c - 1` into slots `4*c .. 4*c + 3`. -/
def colorFillStep (f : ℤ → ℕ) (c : ℕ) : ℤ → ℕ :=
  writeColor4 f c (f (4 * (c : ℤ) - 4)) (f (4 * (c : ℤ) - 3))
    (f (4 * (c : ℤ) - 2)) (f (4 * (c : ℤ) - 1))

/-- The color-reconciliation loop of `rlEnd`, run `n = addColors`
times starting from color counter `c`. -/
def reconcileColorsGo : (ℤ → ℕ) → ℕ → ℕ → (ℤ → ℕ) × ℕ
  | f, c, 0 => (f, c)
  | f, c, n + 1 => reconcileColorsGo (colorFillStep f c) (c + 1) n

/-- One iteration of the texcoord-reconciliation loop in `rlEnd`
(quads only): write `0.0` into both components of slot `tc`. -/
def tcFillStep (f : ℤ → ℚ) (tc : ℕ) : ℤ → ℚ :=
  Function.update (Function.update f (2 * (tc : ℤ)) 0) (2 * (tc : ℤ) + 1) 0

/-- The texcoord-reconciliation loop of `rlEnd`, run
`n = addTexCoords` times starting from texcoord counter `tc`. -/
def reconcileTexcoordsGo : (ℤ → ℚ) → ℕ → ℕ → (ℤ → ℚ) × ℕ
  | f, tc, 0 => (f, tc)
  | f, tc, n + 1 => reconcileTexcoordsGo (tcFillStep f tc) (tc + 1) n

/-- Reconcile a `VertexColorBuf`'s color count with its vertex count
(the `RL_LINES` / `RL_TRIANGLES` cases of the `rlEnd` switch). -/
def reconcileVC (b : VertexColorBuf) : VertexColorBuf :=
  if b.vCounter ≠ b.cCounter then
    let p := reconcileColorsGo b.colors b.cCounter (b.vCounter - b.cCounter)
    { b with colors := p.1, cCounter := p.2 }
  else b

/-- The color half of the `RL_QUADS` case of the `rlEnd` switch. -/
def reconcileQuadsColors (b : QuadsBuf) : QuadsBuf :=
  if b.vCounter ≠ b.cCounter then
    let p := reconcileColorsGo b.colors b.cCounter (b.vCounter - b.cCounter)
    { b with colors := p.1, cCounter := p.2 }
  else b

/-- The texcoord half of the `RL_QUADS` case of the `rlEnd` switch. -/
def reconcileQuadsTc (b : QuadsBuf) : QuadsBuf :=
  if b.vCounter ≠ b.tcCounter then
    let p := reconcileTexcoordsGo b.texcoords b.tcCounter (b.vCounter - b.tcCounter)
    { b with texcoords := p.1, tcCounter := p.2 }
  else b

/-- Reconcile the quads buffer's color and texcoord counts with its
vertex count (the `RL_QUADS` case of the `rlEnd` switch): first the
color loop, then the texcoord loop. -/
def reconcileQuads (b : QuadsBuf) : QuadsBuf :=
  reconcileQuadsTc (reconcileQuadsColors b)

/-- The staging replay block of `rlEnd` (lines 465-482): transform each
staged point in place by the current matrix, lower the flag, replay the
transformed points through `rlVertex3f` in submission order, then clear
the staging counter. -/
def replayTemp (cfg : Cfg) (s : GlState) : GlState :=
  let m := currentMatrixVal s
  let tb := fun i => if i < s.tempBufferCount then VectorTransform m (s.tempBuffer i)
                     else s.tempBuffer i
  let sA := { s with tempBuffer := tb, useTempBuffer := false }
  let sB := (List.range s.tempBufferCount).foldl
    (fun st i => rlVertex3f cfg (tb i).x (tb i).y (tb i).z st) sA
  { sB with tempBufferCount := 0 }

/-- The attribute-count reconciliation switch of `rlEnd`
(lines 486-558), dispatching on the active topology. -/
def reconcileState (s1 : GlState) : GlState :=
  match s1.currentDrawMode with
  | .RL_LINES => { s1 with lines := reconcileVC s1.lines }
  | .RL_TRIANGLES => { s1 with triangles := reconcileVC s1.triangles }
  | .RL_QUADS => { s1 with quads := reconcileQuads s1.quads }

/-- Finish vertex providing (`rlEnd`): if the staging buffer is active,
transform every staged point by the current matrix, lower the flag,
replay the transformed points through `rlVertex3f`, and clear the
staging counter; then reconcile attribute counts for the active
topology; finally advance the pseudo-depth counter. -/
def rlEnd (cfg : Cfg) (s : GlState) : GlState :=
  if s.exited then s
  else
    let s1 := if s.useTempBuffer then replayTemp cfg s else s
    let s2 := reconcileState s1
    { s2 with currentDepth := s2.currentDepth + 1 / 20000 }

/-- Enable texture usage (`rlEnableTexture`, 3.3/ES2 path): if the
handle differs from the current (last) ledger entry's texture, start a
new entry when the current one already has vertices, otherwise reuse
it; either way the current entry becomes `(id, 0)`.  The source
performs no capacity check against `MAX_DRAWS_BY_TEXTURE`. -/
def rlEnableTexture (id : ℕ) (s : GlState) : GlState :=
  if s.exited then s
  else
    let cur := s.draws ((s.drawsCounter : ℤ) - 1)
    if cur.textureId ≠ id then
      let s1 := if 0 < cur.vertexCount then { s with drawsCounter := s.drawsCounter + 1 } else s
      { s1 with draws := Function.update s1.draws ((s1.drawsCounter : ℤ) - 1) ⟨id, 0⟩ }
    else s

/-- The draw-call ledger as a list: the first `drawsCounter` entries of
the `draws` array, in order. -/
def ledger (s : GlState) : List DrawCall :=
  (List.range s.drawsCounter).map fun i : ℕ => s.draws (i : ℤ)

/-- Sum of the `vertexCount` fields of a ledger. -/
def sumVertexCounts (l : List DrawCall) : ℕ :=
  (l.map DrawCall.vertexCount).sum

/-- No two consecutive ledger entries share a texture handle. -/
def adjacentDistinct (l : List DrawCall) : Prop :=
  l.Chain' fun a b => a.textureId ≠ b.textureId

instance : DecidablePred adjacentDistinct := fun l => by
  unfold adjacentDistinct
  infer_instance

/-- GPU commands recorded by the flush engine: buffer uploads
(`glBufferSubData` in `UpdateDefaultBuffers`) and draw calls
(`glDrawArrays` / `glDrawElements` in `rlglDraw`).  State-resetting
binds (`glUseProgram(0)`, VAO unbinds) are not upload or draw calls
and are not recorded. -/
inductive GpuCmd where
  | uploadLines (vCount cCount : ℕ)
  | uploadTriangles (vCount cCount : ℕ)
  | uploadQuads (vCount : ℕ)
  | setUniforms
  | drawLines (vCount : ℕ)
  | drawTriangles (vCount : ℕ)
  | drawQuads (textureId indexCount indicesOffset : ℕ)
deriving DecidableEq, Repr

/-- The uploads performed by `UpdateDefaultBuffers`: each nonempty
buffer's used prefix is pushed to GPU storage at offset 0. -/
def updateDefaultBuffersCmds (s : GlState) : List GpuCmd :=
  (if 0 < s.lines.vCounter then [.uploadLines s.lines.vCounter s.lines.cCounter] else []) ++
  (if 0 < s.triangles.vCounter then [.uploadTriangles s.triangles.vCounter s.triangles.cCounter] else []) ++
  (if 0 < s.quads.vCounter then [.uploadQuads s.quads.vCounter] else [])

/-- The per-ledger-entry indexed draw loop of `rlglDraw`
(lines 1167-1186): each entry draws `(vertexCount / 4) * 6` indices at
the running index offset, which then advances by the same amount. -/
def quadDrawCmds : List DrawCall → ℕ → List GpuCmd
  | [], _ => []
  | e :: rest, off =>
      .drawQuads e.textureId (e.vertexCount / 4 * 6) off ::
        quadDrawCmds rest (off + e.vertexCount / 4 * 6)

/-- Drawing batches (`rlglDraw`): upload dirty buffers, issue the draw
calls, then reset the counters, the ledger and the pseudo-depth.
Returns the performed GPU commands together with the new state. -/
def rlglDraw (s : GlState) : GlState × List GpuCmd :=
  if s.exited then (s, [])
  else
    let cmds :=
      updateDefaultBuffersCmds s ++
      (if 0 < s.lines.vCounter ∨ 0 < s.triangles.vCounter ∨ 0 < s.quads.vCounter
        then [.setUniforms] else []) ++
      (if 0 < s.lines.vCounter then [.drawLines s.lines.vCounter] else []) ++
      (if 0 < s.triangles.vCounter then [.drawTriangles s.triangles.vCounter] else []) ++
      (if 0 < s.quads.vCounter then quadDrawCmds (ledger s) 0 else [])
    let s1 := { s with
      drawsCounter := 1
      draws := Function.update s.draws 0 ⟨s.whiteTexture, 0⟩
      lines := { s.lines with vCounter := 0, cCounter := 0 }
      triangles := { s.triangles with vCounter := 0, cCounter := 0 }
      quads := { s.quads with vCounter := 0, tcCounter := 0, cCounter := 0 }
      currentDepth := -1 }
    (s1, cmds)

/-- The body of the index-generation loop in `LoadDefaultBuffers`
(lines 2510-2520): write the six indices of quad `k` at positions
`i .. i + 5`. -/
def writeQuadIndexGroup (f : ℕ → ℕ) (i k : ℕ) : ℕ → ℕ :=
  Function.update (Function.update (Function.update (Function.update
    (Function.update (Function.update f
      i (4 * k)) (i + 1) (4 * k + 1)) (i + 2) (4 * k + 2))
      (i + 3) (4 * k)) (i + 4) (4 * k + 2)) (i + 5) (4 * k + 3)

/-- The index-generation loop of `LoadDefaultBuffers`, iterating over
`g` remaining quad groups with array position `i` and quad counter
`k`. -/
def loadQuadIndicesGo : ℕ → ℕ → ℕ → (ℕ → ℕ) → ℕ → ℕ
  | 0, _, _, f => f
  | g + 1, i, k, f => loadQuadIndicesGo g (i + 6) (k + 1) (writeQuadIndexGroup f i k)

/-- The precomputed quad index array filled once by
`LoadDefaultBuffers` for `maxQuads = MAX_QUADS_BATCH` quads. -/
def loadQuadIndices (maxQuads : ℕ) : ℕ → ℕ :=
  loadQuadIndicesGo maxQuads 0 0 fun _ => 0

/-- The calls of the exposed batching API, used to describe reachable
states: a program is a list of these operations run from
`initialState`. -/
inductive Op where
  | matrixMode (m : MatrixMode)
  | pushMatrix
  | popMatrix
  | loadIdentity
  | begin (m : DrawMode)
  | vertex (x y z : ℚ)
  | color (r g b a : ℕ)
  | texcoord (u v : ℚ)
  | stop
  | enableTexture (id : ℕ)
  | draw

/-- Interpret one operation. -/
def stepOp (cfg : Cfg) (s : GlState) : Op → GlState
  | .matrixMode m => rlMatrixMode m s
  | .pushMatrix => rlPushMatrix s
  | .popMatrix => rlPopMatrix s
  | .loadIdentity => rlLoadIdentity s
  | .begin m => rlBegin m s
  | .vertex x y z => rlVertex3f cfg x y z s
  | .color r g b a => rlColor4ub r g b a s
  | .texcoord u v => rlTexCoord2f u v s
  | .stop => rlEnd cfg s
  | .enableTexture id => rlEnableTexture id s
  | .draw => (rlglDraw s).1

/-- Run a list of operations in order. -/
def runOps (cfg : Cfg) (ops : List Op) (s : GlState) : GlState :=
  ops.foldl (stepOp cfg) s

/-! Field-preservation lemmas for the operations. -/

@[simp]
lemma traceLog_stackCounter (t : LogType) (msg : String) (s : GlState) :
    (traceLog t msg s).stackCounter = s.stackCounter := by
  unfold traceLog
  split
  · rfl
  · split <;> rfl

@[simp]
lemma setCurrentMatrix_stackCounter (s : GlState) (m : Matrix) :
    (setCurrentMatrix s m).stackCounter = s.stackCounter := by
  unfold setCurrentMatrix
  cases s.currentMatrixMode <;> rfl

@[simp]
lemma rlVertex3f_stackCounter (cfg : Cfg) (x y z : ℚ) (s : GlState) :
    (rlVertex3f cfg x y z s).stackCounter = s.stackCounter := by
  unfold rlVertex3f
  split
  · rfl
  · split
    · rfl
    · split <;> split <;> simp

@[simp]
lemma rlColor4ub_stackCounter (r g b a : ℕ) (s : GlState) :
    (rlColor4ub r g b a s).stackCounter = s.stackCounter := by
  unfold rlColor4ub
  split
  · rfl
  · split <;> rfl

@[simp]
lemma rlTexCoord2f_stackCounter (u v : ℚ) (s : GlState) :
    (rlTexCoord2f u v s).stackCounter = s.stackCounter := by
  unfold rlTexCoord2f
  split
  · rfl
  · split <;> rfl

lemma foldl_stackCounter {α : Type} (f : GlState → α → GlState)
    (h : ∀ st a, (f st a).stackCounter = st.stackCounter) :
    ∀ (l : List α) (s : GlState), (l.foldl f s).stackCounter = s.stackCounter := by
  intro l
  induction l with
  | nil => intro s; rfl
  | cons a t ih => intro s; rw [List.foldl_cons, ih, h]

lemma reconcileState_stackCounter (s1 : GlState) :
    (reconcileState s1).stackCounter = s1.stackCounter := by
  unfold reconcileState
  cases s1.currentDrawMode <;> rfl

lemma replayTemp_stackCounter (cfg : Cfg) (s : GlState) :
    (replayTemp cfg s).stackCounter = s.stackCounter := by
  unfold replayTemp
  dsimp only
  rw [foldl_stackCounter _ (fun st i => rlVertex3f_stackCounter cfg _ _ _ st)]

@[simp]
lemma rlEnd_stackCounter (cfg : Cfg) (s : GlState) :
    (rlEnd cfg s).stackCounter = s.stackCounter := by
  unfold rlEnd
  split
  · rfl
  · dsimp only
    rw [reconcileState_stackCounter]
    split
    · exact replayTemp_stackCounter cfg s
    · rfl

@[simp]
lemma rlEnableTexture_stackCounter (id : ℕ) (s : GlState) :
    (rlEnableTexture id s).stackCounter = s.stackCounter := by
  unfold rlEnableTexture
  split
  · rfl
  · dsimp only
    split
    · dsimp only
      split <;> rfl
    · rfl

@[simp]
lemma rlglDraw_stackCounter (s : GlState) :
    ((rlglDraw s).1).stackCounter = s.stackCounter := by
  unfold rlglDraw
  split <;> rfl

lemma rlPushMatrix_stackCounter (s : GlState) :
    (rlPushMatrix s).stackCounter = s.stackCounter ∨
      (rlPushMatrix s).stackCounter = s.stackCounter + 1 := by
  unfold rlPushMatrix
  split
  · exact Or.inl rfl
  · split
    · exact Or.inl (traceLog_stackCounter _ _ _)
    · right
      dsimp only
      split <;> simp

lemma rlPopMatrix_stackCounter (s : GlState) :
    (rlPopMatrix s).stackCounter = s.stackCounter ∨
      (0 < s.stackCounter ∧ (rlPopMatrix s).stackCounter = s.stackCounter - 1) := by
  unfold rlPopMatrix
  split
  · exact Or.inl rfl
  · split
    · rename_i h
      exact Or.inr ⟨h, by simp⟩
    · exact Or.inl rfl

lemma stepOp_stackCounter_nonneg (cfg : Cfg) (s : GlState) (o : Op)
    (h : 0 ≤ s.stackCounter) : 0 ≤ (stepOp cfg s o).stackCounter := by
  cases o with
  | matrixMode m =>
      have : (rlMatrixMode m s).stackCounter = s.stackCounter := by
        unfold rlMatrixMode; split <;> rfl
      simpa [stepOp, this]
  | pushMatrix =>
      rcases rlPushMatrix_stackCounter s with h1 | h1 <;>
        simp [stepOp, h1] <;> omega
  | popMatrix =>
      rcases rlPopMatrix_stackCounter s with h1 | ⟨h2, h1⟩ <;>
        simp [stepOp, h1] <;> omega
  | loadIdentity =>
      have : (rlLoadIdentity s).stackCounter = s.stackCounter := by
        unfold rlLoadIdentity
        split
        · rfl
        · exact setCurrentMatrix_stackCounter s _
      simpa [stepOp, this]
  | begin m =>
      have : (rlBegin m s).stackCounter = s.stackCounter := by
        unfold rlBegin; split <;> rfl
      simpa [stepOp, this]
  | vertex x y z => simpa [stepOp]
  | color r g b a => simpa [stepOp]
  | texcoord u v => simpa [stepOp]
  | stop => simpa [stepOp]
  | enableTexture id => simpa [stepOp]
  | draw => simpa [stepOp]

lemma runOps_stackCounter_nonneg (cfg : Cfg) (ops : List Op) :
    ∀ s : GlState, 0 ≤ s.stackCounter → 0 ≤ (runOps cfg ops s).stackCounter := by
  induction ops with
  | nil => intro s h; exact h
  | cons o t ih =>
      intro s h
      exact ih _ (stepOp_stackCounter_nonneg cfg s o h)

/-- Claim C10: in every state reachable by running a sequence of API
operations from the initial state, the transform-stack depth
`stackCounter` is at least 0; and `rlPopMatrix` on an empty stack
(`stackCounter = 0`) is a no-op leaving the whole state (current
matrices, stack contents and counter) unchanged. -/
theorem C10_stack_depth_nonneg_and_pop_empty_noop :
    (∀ (cfg : Cfg) (white : ℕ) (junk : ℤ → ℕ) (junkF : ℤ → ℚ) (ops : List Op),
      0 ≤ (runOps cfg ops (initialState cfg white junk junkF)).stackCounter) ∧
    (∀ s : GlState, s.stackCounter = 0 → rlPopMatrix s = s) := by
  constructor
  · intro cfg white junk junkF ops
    exact runOps_stackCounter_nonneg cfg ops _ (by simp [initialState])
  · intro s h
    unfold rlPopMatrix
    split
    · rfl
    · rw [if_neg]
      omega

/-- Concrete configuration used by witnesses and counterexamples. -/
def cfgW : Cfg := ⟨8, 8, 8⟩

/-- Concrete post-initialization state used by witnesses and
counterexamples: white texture handle 1, zeroed heap. -/
def sInit : GlState := initialState cfgW 1 (fun _ => 0) (fun _ => 0)

/-- Witness for C10 at a concrete program and a concrete state. -/
theorem C10_witness :
    0 ≤ (runOps cfgW [.popMatrix, .pushMatrix] sInit).stackCounter ∧
      (sInit.stackCounter = 0 ∧ rlPopMatrix sInit = sInit) :=
  ⟨C10_stack_depth_nonneg_and_pop_empty_noop.1 cfgW 1 _ _ _,
    by decide, C10_stack_depth_nonneg_and_pop_empty_noop.2 sInit (by decide)⟩

/-- Claim C9 (amended): when `rlPushMatrix` is called with the stack
counter at `MATRIX_STACK_SIZE - 1`, the overflow is logged at `ERROR`
severity, and the in-repository `TraceLog` then terminates the process,
so the push is NOT performed: contrary to the claim, execution does not
continue, no matrix is stored, and the counter is not incremented. -/
theorem C9_push_overflow_exits (s : GlState) (he : s.exited = false)
    (h : s.stackCounter = (MATRIX_STACK_SIZE : ℤ) - 1) :
    (rlPushMatrix s).exited = true ∧
    (rlPushMatrix s).stackCounter = s.stackCounter ∧
    (rlPushMatrix s).stack = s.stack ∧
    (rlPushMatrix s).modelview = s.modelview ∧
    (rlPushMatrix s).projection = s.projection ∧
    (rlPushMatrix s).log =
      s.log ++ [(.ERROR, "Stack Buffer Overflow (MAX 16 Matrix)")] := by
  unfold rlPushMatrix
  rw [if_neg (by simp [he]), if_pos h]
  unfold traceLog
  rw [if_neg (by simp [he]), if_pos rfl]
  exact ⟨rfl, rfl, rfl, rfl, rfl, rfl⟩

/-- Concrete state with the stack counter at `MATRIX_STACK_SIZE - 1`,
reached by 15 pushes from the initial state. -/
def sPush15 : GlState := runOps cfgW (List.replicate 15 .pushMatrix) sInit

/-- Counterexample to claim C9 as stated: at stack depth 15 the claim
asserts the push still stores the matrix, increments the counter and
continues execution; in fact the `ERROR`-severity `TraceLog` exits the
process and the counter is not incremented. -/
theorem C9_counterexample :
    sPush15.stackCounter = 15 ∧ sPush15.exited = false ∧
    (rlPushMatrix sPush15).exited = true ∧
    (rlPushMatrix sPush15).stackCounter = 15 := by decide

/-- Witness for C9 at the concrete state `sPush15`. -/
theorem C9_witness :
    (sPush15.exited = false ∧ sPush15.stackCounter = (MATRIX_STACK_SIZE : ℤ) - 1) ∧
    (rlPushMatrix sPush15).exited = true ∧
    (rlPushMatrix sPush15).stackCounter = sPush15.stackCounter ∧
    (rlPushMatrix sPush15).stack = sPush15.stack ∧
    (rlPushMatrix sPush15).modelview = sPush15.modelview ∧
    (rlPushMatrix sPush15).projection = sPush15.projection ∧
    (rlPushMatrix sPush15).log =
      sPush15.log ++ [(.ERROR, "Stack Buffer Overflow (MAX 16 Matrix)")] :=
  ⟨⟨by decide, by decide⟩, C9_push_overflow_exits sPush15 (by decide) (by decide)⟩

/-- Claim C7: flushing with all three primitive buffers empty performs
no GPU upload or draw commands; and every flush (from a live state)
resets the three buffers' counters to zero, the ledger to the single
entry `(whiteTexture, 0)`, and the pseudo-depth to its sentinel `-1`,
while modifying no other batching state (matrices, stack, modes, flags,
staging buffer, log, and the buffer array contents are untouched). -/
theorem C7_flush_empty_and_reset (s : GlState) (he : s.exited = false) :
    (s.lines.vCounter = 0 → s.triangles.vCounter = 0 → s.quads.vCounter = 0 →
      (rlglDraw s).2 = []) ∧
    ((rlglDraw s).1).lines.vCounter = 0 ∧
    ((rlglDraw s).1).lines.cCounter = 0 ∧
    ((rlglDraw s).1).triangles.vCounter = 0 ∧
    ((rlglDraw s).1).triangles.cCounter = 0 ∧
    ((rlglDraw s).1).quads.vCounter = 0 ∧
    ((rlglDraw s).1).quads.tcCounter = 0 ∧
    ((rlglDraw s).1).quads.cCounter = 0 ∧
    ledger (rlglDraw s).1 = [⟨s.whiteTexture, 0⟩] ∧
    ((rlglDraw s).1).currentDepth = -1 ∧
    ((rlglDraw s).1).stackCounter = s.stackCounter ∧
    ((rlglDraw s).1).stack = s.stack ∧
    ((rlglDraw s).1).modelview = s.modelview ∧
    ((rlglDraw s).1).projection = s.projection ∧
    ((rlglDraw s).1).currentMatrixMode = s.currentMatrixMode ∧
    ((rlglDraw s).1).currentDrawMode = s.currentDrawMode ∧
    ((rlglDraw s).1).useTempBuffer = s.useTempBuffer ∧
    ((rlglDraw s).1).tempBuffer = s.tempBuffer ∧
    ((rlglDraw s).1).tempBufferCount = s.tempBufferCount ∧
    ((rlglDraw s).1).whiteTexture = s.whiteTexture ∧
    ((rlglDraw s).1).log = s.log ∧
    ((rlglDraw s).1).exited = s.exited ∧
    ((rlglDraw s).1).lines.vertices = s.lines.vertices ∧
    ((rlglDraw s).1).lines.colors = s.lines.colors ∧
    ((rlglDraw s).1).triangles.vertices = s.triangles.vertices ∧
    ((rlglDraw s).1).triangles.colors = s.triangles.colors ∧
    ((rlglDraw s).1).quads.vertices = s.quads.vertices ∧
    ((rlglDraw s).1).quads.texcoords = s.quads.texcoords ∧
    ((rlglDraw s).1).quads.colors = s.quads.colors := by
  refine ⟨?_, ?_⟩
  · intro h1 h2 h3
    simp [rlglDraw, he, updateDefaultBuffersCmds, h1, h2, h3]
  · simp [rlglDraw, he, ledger, List.range_succ]

/-- Witness for C7 at the concrete initial state. -/
theorem C7_witness :
    sInit.exited = false ∧
      ledger (rlglDraw sInit).1 = [⟨sInit.whiteTexture, 0⟩] ∧
      ((rlglDraw sInit).1).currentDepth = -1 ∧
      (rlglDraw sInit).2 = [] := by
  have h := C7_flush_empty_and_reset sInit rfl
  exact ⟨rfl, h.2.2.2.2.2.2.2.2.1, h.2.2.2.2.2.2.2.2.2.1, h.1 rfl rfl rfl⟩

/-! Views of color and texcoord slots, and the behaviour of the
reconciliation loops of `rlEnd`. -/

/-- The four color bytes of slot `i` of a flat color array. -/
def colorEntryZ (f : ℤ → ℕ) (i : ℤ) : ℕ × ℕ × ℕ × ℕ :=
  (f (4 * i), f (4 * i + 1), f (4 * i + 2), f (4 * i + 3))

/-- The two texcoord components of slot `i` of a flat texcoord array. -/
def tcEntryZ (f : ℤ → ℚ) (i : ℤ) : ℚ × ℚ :=
  (f (2 * i), f (2 * i + 1))

lemma writeColor4_lt (f : ℤ → ℕ) (c : ℕ) (r g b a : ℕ) (j : ℤ)
    (h : j < 4 * (c : ℤ)) : writeColor4 f c r g b a j = f j := by
  unfold writeColor4
  rw [Function.update_noteq (by omega), Function.update_noteq (by omega),
    Function.update_noteq (by omega), Function.update_noteq (by omega)]

lemma writeColor4_entry (f : ℤ → ℕ) (c : ℕ) (r g b a : ℕ) :
    colorEntryZ (writeColor4 f c r g b a) c = (r, g, b, a) := by
  unfold colorEntryZ writeColor4
  rw [show (4 * ((c : ℤ))) = 4 * (c : ℤ) from rfl]
  rw [Function.update_noteq (by omega), Function.update_noteq (by omega),
    Function.update_noteq (by omega), Function.update_same]
  rw [Function.update_noteq (by omega), Function.update_noteq (by omega),
    Function.update_same]
  rw [Function.update_noteq (by omega), Function.update_same]
  rw [Function.update_same]

lemma colorFillStep_lower (f : ℤ → ℕ) (c : ℕ) (j : ℤ) (h : j < 4 * (c : ℤ)) :
    colorFillStep f c j = f j :=
  writeColor4_lt f c _ _ _ _ j h

lemma colorFillStep_entry (f : ℤ → ℕ) (c : ℕ) :
    colorEntryZ (colorFillStep f c) c = colorEntryZ f ((c : ℤ) - 1) := by
  unfold colorFillStep
  rw [writeColor4_entry]
  unfold colorEntryZ
  have h3 : 4 * ((c : ℤ) - 1) + 3 = 4 * (c : ℤ) - 1 := by ring
  have h2 : 4 * ((c : ℤ) - 1) + 2 = 4 * (c : ℤ) - 2 := by ring
  have h1 : 4 * ((c : ℤ) - 1) + 1 = 4 * (c : ℤ) - 3 := by ring
  have h0 : 4 * ((c : ℤ) - 1) = 4 * (c : ℤ) - 4 := by ring
  rw [h3, h2, h1, h0]

lemma reconcileColorsGo_counter :
    ∀ (n : ℕ) (f : ℤ → ℕ) (c : ℕ), (reconcileColorsGo f c n).2 = c + n := by
  intro n
  induction n with
  | zero => intro f c; rfl
  | succ n ih =>
      intro f c
      unfold reconcileColorsGo
      rw [ih]
      omega

lemma reconcileColorsGo_lower :
    ∀ (n : ℕ) (f : ℤ → ℕ) (c : ℕ) (j : ℤ), j < 4 * (c : ℤ) →
      (reconcileColorsGo f c n).1 j = f j := by
  intro n
  induction n with
  | zero => intro f c j _; rfl
  | succ n ih =>
      intro f c j h
      unfold reconcileColorsGo
      rw [ih (colorFillStep f c) (c + 1) j (by push_cast; omega)]
      exact colorFillStep_lower f c j h

lemma reconcileColorsGo_entries :
    ∀ (n : ℕ) (f : ℤ → ℕ) (c : ℕ) (i : ℕ), c ≤ i → i < c + n →
      colorEntryZ (reconcileColorsGo f c n).1 i = colorEntryZ f ((c : ℤ) - 1) := by
  intro n
  induction n with
  | zero => intro f c i h1 h2; omega
  | succ n ih =>
      intro f c i h1 h2
      unfold reconcileColorsGo
      rcases Nat.eq_or_lt_of_le h1 with he | hlt
      · cases he
        unfold colorEntryZ
        rw [reconcileColorsGo_lower n _ (c + 1) _ (by push_cast; omega),
          reconcileColorsGo_lower n _ (c + 1) _ (by push_cast; omega),
          reconcileColorsGo_lower n _ (c + 1) _ (by push_cast; omega),
          reconcileColorsGo_lower n _ (c + 1) _ (by push_cast; omega)]
        exact colorFillStep_entry f c
      · have h3 := ih (colorFillStep f c) (c + 1) i hlt (by omega)
        rw [show (((c + 1 : ℕ) : ℤ) - 1) = (c : ℤ) by push_cast; ring] at h3
        rw [h3]
        exact colorFillStep_entry f c

lemma tcFillStep_lower (f : ℤ → ℚ) (tc : ℕ) (j : ℤ) (h : j < 2 * (tc : ℤ)) :
    tcFillStep f tc j = f j := by
  unfold tcFillStep
  rw [Function.update_noteq (by omega), Function.update_noteq (by omega)]

lemma tcFillStep_entry (f : ℤ → ℚ) (tc : ℕ) :
    tcEntryZ (tcFillStep f tc) tc = (0, 0) := by
  unfold tcEntryZ tcFillStep
  rw [Function.update_noteq (by omega), Function.update_same, Function.update_same]

lemma reconcileTexcoordsGo_counter :
    ∀ (n : ℕ) (f : ℤ → ℚ) (tc : ℕ), (reconcileTexcoordsGo f tc n).2 = tc + n := by
  intro n
  induction n with
  | zero => intro f tc; rfl
  | succ n ih =>
      intro f tc
      unfold reconcileTexcoordsGo
      rw [ih]
      omega

lemma reconcileTexcoordsGo_lower :
    ∀ (n : ℕ) (f : ℤ → ℚ) (tc : ℕ) (j : ℤ), j < 2 * (tc : ℤ) →
      (reconcileTexcoordsGo f tc n).1 j = f j := by
  intro n
  induction n with
  | zero => intro f tc j _; rfl
  | succ n ih =>
      intro f tc j h
      unfold reconcileTexcoordsGo
      rw [ih (tcFillStep f tc) (tc + 1) j (by push_cast; omega)]
      exact tcFillStep_lower f tc j h

lemma reconcileTexcoordsGo_entries :
    ∀ (n : ℕ) (f : ℤ → ℚ) (tc : ℕ) (i : ℕ), tc ≤ i → i < tc + n →
      tcEntryZ (reconcileTexcoordsGo f tc n).1 i = (0, 0) := by
  intro n
  induction n with
  | zero => intro f tc i h1 h2; omega
  | succ n ih =>
      intro f tc i h1 h2
      unfold reconcileTexcoordsGo
      rcases Nat.eq_or_lt_of_le h1 with he | hlt
      · cases he
        unfold tcEntryZ
        rw [reconcileTexcoordsGo_lower n _ (tc + 1) _ (by push_cast; omega),
          reconcileTexcoordsGo_lower n _ (tc + 1) _ (by push_cast; omega)]
        exact tcFillStep_entry f tc
      · exact ih (tcFillStep f tc) (tc + 1) i hlt (by omega)

/-- Under the hypotheses that the state is live, the staging buffer is
inactive and the topology is quads, `rlEnd` acts on the quads buffer as
`reconcileQuads`. -/
lemma rlEnd_quads_eq (cfg : Cfg) (s : GlState) (he : s.exited = false)
    (hf : s.useTempBuffer = false) (hm : s.currentDrawMode = .RL_QUADS) :
    (rlEnd cfg s).quads = reconcileQuads s.quads := by
  simp [rlEnd, reconcileState, he, hf, hm]

/-- Claim C3 (amended): for a quads shape whose texcoord count is less
than its vertex count at `rlEnd` time, the texcoord count is reconciled
to equal the vertex count by writing the constant `(0, 0)` into every
missing slot — a zero-fill, not a replay of the last-written texcoord —
while the already-written texcoord slots are untouched. -/
theorem C3_texcoord_zero_fill (cfg : Cfg) (s : GlState) (he : s.exited = false)
    (hf : s.useTempBuffer = false) (hm : s.currentDrawMode = .RL_QUADS)
    (h : s.quads.tcCounter < s.quads.vCounter) :
    (rlEnd cfg s).quads.tcCounter = s.quads.vCounter ∧
    (∀ i : ℕ, s.quads.tcCounter ≤ i → i < s.quads.vCounter →
      tcEntryZ ((rlEnd cfg s).quads.texcoords) i = (0, 0)) ∧
    (∀ j : ℤ, j < 2 * (s.quads.tcCounter : ℤ) →
      (rlEnd cfg s).quads.texcoords j = s.quads.texcoords j) := by
  rw [rlEnd_quads_eq cfg s he hf hm]
  have hcv : (reconcileQuadsColors s.quads).vCounter = s.quads.vCounter := by
    unfold reconcileQuadsColors; split <;> rfl
  have hctc : (reconcileQuadsColors s.quads).tcCounter = s.quads.tcCounter := by
    unfold reconcileQuadsColors; split <;> rfl
  have hctx : (reconcileQuadsColors s.quads).texcoords = s.quads.texcoords := by
    unfold reconcileQuadsColors; split <;> rfl
  unfold reconcileQuads reconcileQuadsTc
  rw [if_pos (by rw [hcv, hctc]; omega)]
  dsimp only
  rw [hcv, hctc, hctx]
  refine ⟨?_, ?_, ?_⟩
  · rw [reconcileTexcoordsGo_counter]
    omega
  · intro i h1 h2
    exact reconcileTexcoordsGo_entries _ _ _ i h1 (by omega)
  · intro j hj
    exact reconcileTexcoordsGo_lower _ _ _ j hj

/-- The quads shape used by the C3 counterexample and witness: one
texcoord `(5, 7)` then four plain vertices. -/
def opsC3 : List Op :=
  [.begin .RL_QUADS, .texcoord 5 7, .vertex 0 0 0, .vertex 0 0 0,
   .vertex 0 0 0, .vertex 0 0 0]

/-- The state of that shape just before `rlEnd`. -/
def sPreC3 : GlState := runOps cfgW opsC3 sInit

/-- Counterexample to claim C3 as stated: after `rlEnd`, missing
texcoord slot 1 holds `(0, 0)`, not the last-written value `(5, 7)` —
the reconciliation fills zeros instead of replaying. -/
theorem C3_counterexample :
    tcEntryZ ((rlEnd cfgW sPreC3).quads.texcoords) 1 = (0, 0) ∧
    tcEntryZ ((rlEnd cfgW sPreC3).quads.texcoords) 0 = (5, 7) ∧
    ((0 : ℚ), (0 : ℚ)) ≠ ((5 : ℚ), (7 : ℚ)) := by decide

/-- Witness for C3 at the concrete pre-`rlEnd` state `sPreC3`. -/
theorem C3_witness :
    (sPreC3.exited = false ∧ sPreC3.useTempBuffer = false ∧
      sPreC3.currentDrawMode = .RL_QUADS ∧
      sPreC3.quads.tcCounter < sPreC3.quads.vCounter) ∧
    (rlEnd cfgW sPreC3).quads.tcCounter = sPreC3.quads.vCounter ∧
    tcEntryZ ((rlEnd cfgW sPreC3).quads.texcoords) 2 = (0, 0) :=
  ⟨⟨by decide, by decide, by decide, by decide⟩,
    (C3_texcoord_zero_fill cfgW sPreC3 (by decide) (by decide) (by decide) (by decide)).1,
    (C3_texcoord_zero_fill cfgW sPreC3 (by decide) (by decide) (by decide)
      (by decide)).2.1 2 (by decide) (by decide)⟩

/-! Per-topology accessors and exact characterizations of the
operations under explicit branch hypotheses. -/

/-- The vertex counter of the buffer selected by a topology. -/
def vCnt (s : GlState) (t : DrawMode) : ℕ :=
  match t with
  | .RL_LINES => s.lines.vCounter
  | .RL_TRIANGLES => s.triangles.vCounter
  | .RL_QUADS => s.quads.vCounter

/-- The color counter of the buffer selected by a topology. -/
def cCnt (s : GlState) (t : DrawMode) : ℕ :=
  match t with
  | .RL_LINES => s.lines.cCounter
  | .RL_TRIANGLES => s.triangles.cCounter
  | .RL_QUADS => s.quads.cCounter

/-- The color array of the buffer selected by a topology. -/
def colorsOf (s : GlState) (t : DrawMode) : ℤ → ℕ :=
  match t with
  | .RL_LINES => s.lines.colors
  | .RL_TRIANGLES => s.triangles.colors
  | .RL_QUADS => s.quads.colors

/-- The position array of the buffer selected by a topology. -/
def verticesOf (s : GlState) (t : DrawMode) : ℤ → ℚ :=
  match t with
  | .RL_LINES => s.lines.vertices
  | .RL_TRIANGLES => s.triangles.vertices
  | .RL_QUADS => s.quads.vertices

/-- The vertex capacity of a topology: the capacity check of
`rlVertex3f` accepts exactly this many vertices. -/
def vertexCap (cfg : Cfg) (t : DrawMode) : ℕ :=
  match t with
  | .RL_LINES => 2 * cfg.MAX_LINES_BATCH
  | .RL_TRIANGLES => 3 * cfg.MAX_TRIANGLES_BATCH
  | .RL_QUADS => 4 * cfg.MAX_QUADS_BATCH

/-- The overflow message logged by `rlVertex3f` for a topology. -/
def overflowMsg (t : DrawMode) : String :=
  match t with
  | .RL_LINES => "MAX_LINES_BATCH overflow"
  | .RL_TRIANGLES => "MAX_TRIANGLES_BATCH overflow"
  | .RL_QUADS => "MAX_QUADS_BATCH overflow"

lemma rlVertex3f_temp (cfg : Cfg) (x y z : ℚ) (s : GlState)
    (he : s.exited = false) (hT : s.useTempBuffer = true) :
    rlVertex3f cfg x y z s =
      { s with
        tempBuffer := Function.update s.tempBuffer s.tempBufferCount ⟨x, y, z⟩
        tempBufferCount := s.tempBufferCount + 1 } := by
  unfold rlVertex3f
  rw [if_neg (by simp [he]), if_pos (by simp [hT])]

lemma rlVertex3f_lines_accept (cfg : Cfg) (x y z : ℚ) (s : GlState)
    (he : s.exited = false) (hf : s.useTempBuffer = false)
    (hm : s.currentDrawMode = .RL_LINES)
    (hcap : s.lines.vCounter < 2 * cfg.MAX_LINES_BATCH) :
    rlVertex3f cfg x y z s =
      { s with lines := { s.lines with
          vertices := writeVertex3 s.lines.vertices s.lines.vCounter x y z
          vCounter := s.lines.vCounter + 1 } } := by
  unfold rlVertex3f
  rw [if_neg (by simp [he]), if_neg (by simp [hf]), hm]
  dsimp only
  rw [if_pos (by omega)]

lemma rlVertex3f_triangles_accept (cfg : Cfg) (x y z : ℚ) (s : GlState)
    (he : s.exited = false) (hf : s.useTempBuffer = false)
    (hm : s.currentDrawMode = .RL_TRIANGLES)
    (hcap : s.triangles.vCounter < 3 * cfg.MAX_TRIANGLES_BATCH) :
    rlVertex3f cfg x y z s =
      { s with triangles := { s.triangles with
          vertices := writeVertex3 s.triangles.vertices s.triangles.vCounter x y z
          vCounter := s.triangles.vCounter + 1 } } := by
  unfold rlVertex3f
  rw [if_neg (by simp [he]), if_neg (by simp [hf]), hm]
  dsimp only
  rw [if_pos (by omega)]

lemma rlVertex3f_quads_accept (cfg : Cfg) (x y z : ℚ) (s : GlState)
    (he : s.exited = false) (hf : s.useTempBuffer = false)
    (hm : s.currentDrawMode = .RL_QUADS)
    (hcap : s.quads.vCounter < 4 * cfg.MAX_QUADS_BATCH) :
    rlVertex3f cfg x y z s =
      { s with
        quads := { s.quads with
          vertices := writeVertex3 s.quads.vertices s.quads.vCounter x y z
          vCounter := s.quads.vCounter + 1 }
        draws := Function.update s.draws ((s.drawsCounter : ℤ) - 1)
          { s.draws ((s.drawsCounter : ℤ) - 1) with
            vertexCount := (s.draws ((s.drawsCounter : ℤ) - 1)).vertexCount + 1 } } := by
  unfold rlVertex3f
  rw [if_neg (by simp [he]), if_neg (by simp [hf]), hm]
  dsimp only
  rw [if_pos (by omega)]

lemma rlVertex3f_drop (cfg : Cfg) (x y z : ℚ) (s : GlState) (t : DrawMode)
    (he : s.exited = false) (hf : s.useTempBuffer = false)
    (hm : s.currentDrawMode = t)
    (hcap : vertexCap cfg t ≤ vCnt s t) :
    rlVertex3f cfg x y z s = traceLog .ERROR (overflowMsg t) s := by
  unfold rlVertex3f
  rw [if_neg (by simp [he]), if_neg (by simp [hf]), hm]
  cases t <;>
  · dsimp only
    rw [if_neg (by unfold vertexCap vCnt at hcap; dsimp only at hcap; omega)]
    rfl

lemma rlColor4ub_lines (r g b a : ℕ) (s : GlState)
    (he : s.exited = false) (hm : s.currentDrawMode = .RL_LINES) :
    rlColor4ub r g b a s =
      { s with lines := { s.lines with
          colors := writeColor4 s.lines.colors s.lines.cCounter r g b a
          cCounter := s.lines.cCounter + 1 } } := by
  unfold rlColor4ub
  rw [if_neg (by simp [he]), hm]

lemma rlColor4ub_triangles (r g b a : ℕ) (s : GlState)
    (he : s.exited = false) (hm : s.currentDrawMode = .RL_TRIANGLES) :
    rlColor4ub r g b a s =
      { s with triangles := { s.triangles with
          colors := writeColor4 s.triangles.colors s.triangles.cCounter r g b a
          cCounter := s.triangles.cCounter + 1 } } := by
  unfold rlColor4ub
  rw [if_neg (by simp [he]), hm]

lemma rlColor4ub_quads (r g b a : ℕ) (s : GlState)
    (he : s.exited = false) (hm : s.currentDrawMode = .RL_QUADS) :
    rlColor4ub r g b a s =
      { s with quads := { s.quads with
          colors := writeColor4 s.quads.colors s.quads.cCounter r g b a
          cCounter := s.quads.cCounter + 1 } } := by
  unfold rlColor4ub
  rw [if_neg (by simp [he]), hm]

lemma rlTexCoord2f_quads (u v : ℚ) (s : GlState)
    (he : s.exited = false) (hm : s.currentDrawMode = .RL_QUADS) :
    rlTexCoord2f u v s =
      { s with quads := { s.quads with
          texcoords := Function.update (Function.update s.quads.texcoords
            (2 * (s.quads.tcCounter : ℤ)) u) (2 * (s.quads.tcCounter : ℤ) + 1) v
          tcCounter := s.quads.tcCounter + 1 } } := by
  unfold rlTexCoord2f
  rw [if_neg (by simp [he]), hm]

lemma rlTexCoord2f_other (u v : ℚ) (s : GlState)
    (hm : s.currentDrawMode ≠ .RL_QUADS) :
    rlTexCoord2f u v s = s := by
  unfold rlTexCoord2f
  split
  · rfl
  · rcases h : s.currentDrawMode with _ | _ | _
    · rfl
    · rfl
    · exact absurd h hm

lemma rlEnableTexture_same (id : ℕ) (s : GlState)
    (h : (s.draws ((s.drawsCounter : ℤ) - 1)).textureId = id) :
    rlEnableTexture id s = s := by
  unfold rlEnableTexture
  split
  · rfl
  · dsimp only
    rw [if_neg (by simp [h])]

lemma rlEnableTexture_append (id : ℕ) (s : GlState)
    (he : s.exited = false)
    (h : (s.draws ((s.drawsCounter : ℤ) - 1)).textureId ≠ id)
    (hc : 0 < (s.draws ((s.drawsCounter : ℤ) - 1)).vertexCount) :
    rlEnableTexture id s =
      { s with
        drawsCounter := s.drawsCounter + 1
        draws := Function.update s.draws (((s.drawsCounter + 1 : ℕ) : ℤ) - 1) ⟨id, 0⟩ } := by
  unfold rlEnableTexture
  rw [if_neg (by simp [he])]
  dsimp only
  rw [if_pos h, if_pos hc]

lemma rlEnableTexture_reuse (id : ℕ) (s : GlState)
    (he : s.exited = false)
    (h : (s.draws ((s.drawsCounter : ℤ) - 1)).textureId ≠ id)
    (hc : (s.draws ((s.drawsCounter : ℤ) - 1)).vertexCount = 0) :
    rlEnableTexture id s =
      { s with draws := Function.update s.draws ((s.drawsCounter : ℤ) - 1) ⟨id, 0⟩ } := by
  unfold rlEnableTexture
  rw [if_neg (by simp [he])]
  dsimp only
  rw [if_pos h, if_neg (by omega)]

/-- The operations that may occur inside one shape (between `rlBegin`
and `rlEnd`) together with texture binds: vertex, color, texcoord and
texture-enable calls. -/
def isShapeOp : Op → Bool
  | .vertex _ _ _ => true
  | .color _ _ _ _ => true
  | .texcoord _ _ => true
  | .enableTexture _ => true
  | _ => false

/-- Whether an operation is a vertex submission. -/
def isVertexOp : Op → Bool
  | .vertex _ _ _ => true
  | _ => false

/-- Whether an operation is a color submission. -/
def isColorOp : Op → Bool
  | .color _ _ _ _ => true
  | _ => false

/-- Number of vertex submissions in an operation list. -/
def countV (ops : List Op) : ℕ := (ops.filter isVertexOp).length

/-- Number of color submissions in an operation list. -/
def countC (ops : List Op) : ℕ := (ops.filter isColorOp).length

/-- Vertex submissions contributed by a single operation. -/
def opV (o : Op) : ℕ := if isVertexOp o then 1 else 0

/-- Color submissions contributed by a single operation. -/
def opC (o : Op) : ℕ := if isColorOp o then 1 else 0

lemma countV_cons (o : Op) (rest : List Op) :
    countV (o :: rest) = opV o + countV rest := by
  unfold countV opV
  rcases h : isVertexOp o <;> simp [List.filter_cons, h, Nat.add_comm]

lemma countC_cons (o : Op) (rest : List Op) :
    countC (o :: rest) = opC o + countC rest := by
  unfold countC opC
  rcases h : isColorOp o <;> simp [List.filter_cons, h, Nat.add_comm]

lemma stepShape_spec (cfg : Cfg) (s : GlState) (o : Op) (t : DrawMode)
    (ho : isShapeOp o = true)
    (he : s.exited = false) (hf : s.useTempBuffer = false)
    (hm : s.currentDrawMode = t) (hd : 1 ≤ s.drawsCounter)
    (hcap : vCnt s t + opV o ≤ vertexCap cfg t) :
    (stepOp cfg s o).exited = false ∧
    (stepOp cfg s o).useTempBuffer = false ∧
    (stepOp cfg s o).currentDrawMode = t ∧
    1 ≤ (stepOp cfg s o).drawsCounter ∧
    vCnt (stepOp cfg s o) t = vCnt s t + opV o ∧
    cCnt (stepOp cfg s o) t = cCnt s t + opC o := by
  cases o with
  | vertex x y z =>
      have hV : opV (Op.vertex x y z) = 1 := rfl
      have hC : opC (Op.vertex x y z) = 0 := rfl
      rw [hV] at hcap ⊢
      rw [hC]
      simp only [stepOp]
      cases t with
      | RL_LINES =>
          rw [rlVertex3f_lines_accept cfg x y z s he hf hm
            (by simp only [vCnt, vertexCap] at hcap; omega)]
          refine ⟨he, hf, hm, hd, ?_, ?_⟩ <;> simp [vCnt, cCnt]
      | RL_TRIANGLES =>
          rw [rlVertex3f_triangles_accept cfg x y z s he hf hm
            (by simp only [vCnt, vertexCap] at hcap; omega)]
          refine ⟨he, hf, hm, hd, ?_, ?_⟩ <;> simp [vCnt, cCnt]
      | RL_QUADS =>
          rw [rlVertex3f_quads_accept cfg x y z s he hf hm
            (by simp only [vCnt, vertexCap] at hcap; omega)]
          refine ⟨he, hf, hm, hd, ?_, ?_⟩ <;> simp [vCnt, cCnt]
  | color r g b a =>
      have hV : opV (Op.color r g b a) = 0 := rfl
      have hC : opC (Op.color r g b a) = 1 := rfl
      rw [hV, hC]
      simp only [stepOp]
      cases t with
      | RL_LINES =>
          rw [rlColor4ub_lines r g b a s he hm]
          refine ⟨he, hf, hm, hd, ?_, ?_⟩ <;> simp [vCnt, cCnt]
      | RL_TRIANGLES =>
          rw [rlColor4ub_triangles r g b a s he hm]
          refine ⟨he, hf, hm, hd, ?_, ?_⟩ <;> simp [vCnt, cCnt]
      | RL_QUADS =>
          rw [rlColor4ub_quads r g b a s he hm]
          refine ⟨he, hf, hm, hd, ?_, ?_⟩ <;> simp [vCnt, cCnt]
  | texcoord u v =>
      have hV : opV (Op.texcoord u v) = 0 := rfl
      have hC : opC (Op.texcoord u v) = 0 := rfl
      rw [hV, hC]
      simp only [stepOp]
      cases t with
      | RL_LINES =>
          rw [rlTexCoord2f_other u v s (by rw [hm]; intro h; cases h)]
          exact ⟨he, hf, hm, hd, by simp, by simp⟩
      | RL_TRIANGLES =>
          rw [rlTexCoord2f_other u v s (by rw [hm]; intro h; cases h)]
          exact ⟨he, hf, hm, hd, by simp, by simp⟩
      | RL_QUADS =>
          rw [rlTexCoord2f_quads u v s he hm]
          refine ⟨he, hf, hm, hd, ?_, ?_⟩ <;> simp [vCnt, cCnt]
  | enableTexture id =>
      have hV : opV (Op.enableTexture id) = 0 := rfl
      have hC : opC (Op.enableTexture id) = 0 := rfl
      rw [hV, hC]
      simp only [stepOp]
      by_cases hsame : (s.draws ((s.drawsCounter : ℤ) - 1)).textureId = id
      · rw [rlEnableTexture_same id s hsame]
        exact ⟨he, hf, hm, hd, by simp, by simp⟩
      · by_cases hc : 0 < (s.draws ((s.drawsCounter : ℤ) - 1)).vertexCount
        · rw [rlEnableTexture_append id s he hsame hc]
          refine ⟨he, hf, hm, by dsimp only; omega, ?_, ?_⟩ <;>
            cases t <;> simp [vCnt, cCnt]
        · rw [rlEnableTexture_reuse id s he hsame (by omega)]
          refine ⟨he, hf, hm, hd, ?_, ?_⟩ <;>
            cases t <;> simp [vCnt, cCnt]
  | matrixMode m => cases ho
  | pushMatrix => cases ho
  | popMatrix => cases ho
  | loadIdentity => cases ho
  | begin m => cases ho
  | stop => cases ho
  | draw => cases ho

lemma runShape_spec (cfg : Cfg) :
    ∀ (ops : List Op) (s : GlState) (t : DrawMode),
      (∀ o ∈ ops, isShapeOp o = true) →
      s.exited = false → s.useTempBuffer = false → s.currentDrawMode = t →
      1 ≤ s.drawsCounter →
      vCnt s t + countV ops ≤ vertexCap cfg t →
      (runOps cfg ops s).exited = false ∧
      (runOps cfg ops s).useTempBuffer = false ∧
      (runOps cfg ops s).currentDrawMode = t ∧
      1 ≤ (runOps cfg ops s).drawsCounter ∧
      vCnt (runOps cfg ops s) t = vCnt s t + countV ops ∧
      cCnt (runOps cfg ops s) t = cCnt s t + countC ops := by
  intro ops
  induction ops with
  | nil =>
      intro s t _ he hf hm hd _
      exact ⟨he, hf, hm, hd, by simp [runOps, countV], by simp [runOps, countC]⟩
  | cons o rest ih =>
      intro s t hall he hf hm hd hcap
      have hallr : ∀ q ∈ rest, isShapeOp q = true := fun q hq => hall q (by simp [hq])
      have hco : isShapeOp o = true := hall o (by simp)
      rw [countV_cons] at hcap
      have hstep := stepShape_spec cfg s o t hco he hf hm hd (by omega)
      obtain ⟨e1, f1, m1, d1, v1, c1⟩ := hstep
      have hrun : runOps cfg (o :: rest) s = runOps cfg rest (stepOp cfg s o) := rfl
      rw [hrun]
      have hih := ih (stepOp cfg s o) t hallr e1 f1 m1 d1 (by rw [v1]; omega)
      obtain ⟨e2, f2, m2, d2, v2, c2⟩ := hih
      refine ⟨e2, f2, m2, d2, ?_, ?_⟩
      · rw [v2, v1, countV_cons]; omega
      · rw [c2, c1, countC_cons]; omega

lemma rlEnd_lines_eq (cfg : Cfg) (s : GlState) (he : s.exited = false)
    (hf : s.useTempBuffer = false) (hm : s.currentDrawMode = .RL_LINES) :
    (rlEnd cfg s).lines = reconcileVC s.lines := by
  simp [rlEnd, reconcileState, he, hf, hm]

lemma rlEnd_triangles_eq (cfg : Cfg) (s : GlState) (he : s.exited = false)
    (hf : s.useTempBuffer = false) (hm : s.currentDrawMode = .RL_TRIANGLES) :
    (rlEnd cfg s).triangles = reconcileVC s.triangles := by
  simp [rlEnd, reconcileState, he, hf, hm]

lemma reconcileVC_spec (b : VertexColorBuf) (h : b.cCounter < b.vCounter) :
    (reconcileVC b).cCounter = b.vCounter ∧
    (∀ j : ℤ, j < 4 * (b.cCounter : ℤ) → (reconcileVC b).colors j = b.colors j) ∧
    (∀ i : ℕ, b.cCounter ≤ i → i < b.vCounter →
      colorEntryZ (reconcileVC b).colors i = colorEntryZ b.colors ((b.cCounter : ℤ) - 1)) ∧
    (reconcileVC b).vCounter = b.vCounter ∧
    (reconcileVC b).vertices = b.vertices := by
  unfold reconcileVC
  rw [if_pos (by omega)]
  dsimp only
  refine ⟨?_, ?_, ?_, rfl, rfl⟩
  · rw [reconcileColorsGo_counter]; omega
  · intro j hj
    exact reconcileColorsGo_lower _ _ _ j hj
  · intro i h1 h2
    exact reconcileColorsGo_entries _ _ _ i h1 (by omega)

lemma reconcileQuadsColors_spec (b : QuadsBuf) (h : b.cCounter < b.vCounter) :
    (reconcileQuadsColors b).cCounter = b.vCounter ∧
    (∀ j : ℤ, j < 4 * (b.cCounter : ℤ) →
      (reconcileQuadsColors b).colors j = b.colors j) ∧
    (∀ i : ℕ, b.cCounter ≤ i → i < b.vCounter →
      colorEntryZ (reconcileQuadsColors b).colors i =
        colorEntryZ b.colors ((b.cCounter : ℤ) - 1)) ∧
    (reconcileQuadsColors b).vCounter = b.vCounter ∧
    (reconcileQuadsColors b).vertices = b.vertices ∧
    (reconcileQuadsColors b).tcCounter = b.tcCounter ∧
    (reconcileQuadsColors b).texcoords = b.texcoords := by
  unfold reconcileQuadsColors
  rw [if_pos (by omega)]
  dsimp only
  refine ⟨?_, ?_, ?_, rfl, rfl, rfl, rfl⟩
  · rw [reconcileColorsGo_counter]; omega
  · intro j hj
    exact reconcileColorsGo_lower _ _ _ j hj
  · intro i h1 h2
    exact reconcileColorsGo_entries _ _ _ i h1 (by omega)

lemma reconcileQuadsTc_colors (b : QuadsBuf) :
    (reconcileQuadsTc b).colors = b.colors ∧
    (reconcileQuadsTc b).cCounter = b.cCounter ∧
    (reconcileQuadsTc b).vCounter = b.vCounter ∧
    (reconcileQuadsTc b).vertices = b.vertices := by
  unfold reconcileQuadsTc
  split <;> exact ⟨rfl, rfl, rfl, rfl⟩

/-- One shape run from a fresh post-initialization state: `rlBegin t`
followed by the given submissions. -/
def shapeRun (cfg : Cfg) (t : DrawMode) (ops : List Op) (white : ℕ)
    (junk : ℤ → ℕ) (junkF : ℤ → ℚ) : GlState :=
  runOps cfg ops (rlBegin t (initialState cfg white junk junkF))

lemma shapeRun_begin_facts (cfg : Cfg) (t : DrawMode) (white : ℕ)
    (junk : ℤ → ℕ) (junkF : ℤ → ℚ) :
    (rlBegin t (initialState cfg white junk junkF)).exited = false ∧
    (rlBegin t (initialState cfg white junk junkF)).useTempBuffer = false ∧
    (rlBegin t (initialState cfg white junk junkF)).currentDrawMode = t ∧
    (rlBegin t (initialState cfg white junk junkF)).drawsCounter = 1 ∧
    vCnt (rlBegin t (initialState cfg white junk junkF)) t = 0 ∧
    cCnt (rlBegin t (initialState cfg white junk junkF)) t = 0 := by
  refine ⟨rfl, rfl, ?_, rfl, ?_, ?_⟩ <;>
    cases t <;> rfl

lemma shapeRun_spec (cfg : Cfg) (t : DrawMode) (ops : List Op) (white : ℕ)
    (junk : ℤ → ℕ) (junkF : ℤ → ℚ)
    (hall : ∀ o ∈ ops, isShapeOp o = true)
    (hcap : countV ops ≤ vertexCap cfg t) :
    (shapeRun cfg t ops white junk junkF).exited = false ∧
    (shapeRun cfg t ops white junk junkF).useTempBuffer = false ∧
    (shapeRun cfg t ops white junk junkF).currentDrawMode = t ∧
    1 ≤ (shapeRun cfg t ops white junk junkF).drawsCounter ∧
    vCnt (shapeRun cfg t ops white junk junkF) t = countV ops ∧
    cCnt (shapeRun cfg t ops white junk junkF) t = countC ops := by
  obtain ⟨e0, f0, m0, d0, v0, c0⟩ := shapeRun_begin_facts cfg t white junk junkF
  have h := runShape_spec cfg ops (rlBegin t (initialState cfg white junk junkF)) t
    hall e0 f0 m0 (by omega) (by omega)
  obtain ⟨e1, f1, m1, d1, v1, c1⟩ := h
  refine ⟨e1, f1, m1, d1, ?_, ?_⟩
  · rw [show shapeRun cfg t ops white junk junkF =
      runOps cfg ops (rlBegin t (initialState cfg white junk junkF)) from rfl, v1, v0]
    omega
  · rw [show shapeRun cfg t ops white junk junkF =
      runOps cfg ops (rlBegin t (initialState cfg white junk junkF)) from rfl, c1, c0]
    omega

/-- Claim C2 (amended): for a shape of `N` vertex submissions and `M`
color submissions with `1 ≤ M < N ≤ capacity`, interleaved arbitrarily,
after `rlEnd` the active topology's color count equals `N`, color
entries `M .. N-1` all equal color entry `M-1`, and the position data is
unchanged by the reconciliation.  (For `M = 0` the source replicates
whatever lies before the start of the color array — out-of-bounds
memory, not a defined default; see the counterexample.) -/
theorem C2_color_reconciliation (cfg : Cfg) (t : DrawMode) (ops : List Op)
    (white : ℕ) (junk : ℤ → ℕ) (junkF : ℤ → ℚ)
    (hall : ∀ o ∈ ops, isVertexOp o = true ∨ isColorOp o = true)
    (hM1 : 1 ≤ countC ops) (hMN : countC ops < countV ops)
    (hcap : countV ops ≤ vertexCap cfg t) :
    cCnt (rlEnd cfg (shapeRun cfg t ops white junk junkF)) t = countV ops ∧
    vCnt (rlEnd cfg (shapeRun cfg t ops white junk junkF)) t = countV ops ∧
    (∀ i : ℕ, countC ops ≤ i → i < countV ops →
      colorEntryZ (colorsOf (rlEnd cfg (shapeRun cfg t ops white junk junkF)) t) i =
        colorEntryZ (colorsOf (rlEnd cfg (shapeRun cfg t ops white junk junkF)) t)
          ((countC ops : ℤ) - 1)) ∧
    verticesOf (rlEnd cfg (shapeRun cfg t ops white junk junkF)) t =
      verticesOf (shapeRun cfg t ops white junk junkF) t := by
  have hall2 : ∀ o ∈ ops, isShapeOp o = true := by
    intro o ho
    rcases hall o ho with h | h <;> cases o <;> first | rfl | cases h
  obtain ⟨e1, f1, m1, d1, v1, c1⟩ := shapeRun_spec cfg t ops white junk junkF hall2 hcap
  set sPre := shapeRun cfg t ops white junk junkF with hsPre
  cases t with
  | RL_LINES =>
      have hb := rlEnd_lines_eq cfg sPre e1 f1 m1
      have hcc : sPre.lines.cCounter = countC ops := c1
      have hvv : sPre.lines.vCounter = countV ops := v1
      obtain ⟨r1, r2, r3, r4, r5⟩ := reconcileVC_spec sPre.lines (by omega)
      refine ⟨?_, ?_, ?_, ?_⟩
      · show (rlEnd cfg sPre).lines.cCounter = countV ops
        rw [hb, r1, hvv]
      · show (rlEnd cfg sPre).lines.vCounter = countV ops
        rw [hb, r4, hvv]
      · intro i h1 h2
        show colorEntryZ (rlEnd cfg sPre).lines.colors i =
          colorEntryZ (rlEnd cfg sPre).lines.colors ((countC ops : ℤ) - 1)
        rw [hb]
        rw [r3 i (by omega) (by omega)]
        unfold colorEntryZ
        rw [r2 _ (by omega), r2 _ (by omega), r2 _ (by omega), r2 _ (by omega)]
        rw [hcc]
      · show (rlEnd cfg sPre).lines.vertices = sPre.lines.vertices
        rw [hb, r5]
  | RL_TRIANGLES =>
      have hb := rlEnd_triangles_eq cfg sPre e1 f1 m1
      have hcc : sPre.triangles.cCounter = countC ops := c1
      have hvv : sPre.triangles.vCounter = countV ops := v1
      obtain ⟨r1, r2, r3, r4, r5⟩ := reconcileVC_spec sPre.triangles (by omega)
      refine ⟨?_, ?_, ?_, ?_⟩
      · show (rlEnd cfg sPre).triangles.cCounter = countV ops
        rw [hb, r1, hvv]
      · show (rlEnd cfg sPre).triangles.vCounter = countV ops
        rw [hb, r4, hvv]
      · intro i h1 h2
        show colorEntryZ (rlEnd cfg sPre).triangles.colors i =
          colorEntryZ (rlEnd cfg sPre).triangles.colors ((countC ops : ℤ) - 1)
        rw [hb]
        rw [r3 i (by omega) (by omega)]
        unfold colorEntryZ
        rw [r2 _ (by omega), r2 _ (by omega), r2 _ (by omega), r2 _ (by omega)]
        rw [hcc]
      · show (rlEnd cfg sPre).triangles.vertices = sPre.triangles.vertices
        rw [hb, r5]
  | RL_QUADS =>
      have hb := rlEnd_quads_eq cfg sPre e1 f1 m1
      have hcc : sPre.quads.cCounter = countC ops := c1
      have hvv : sPre.quads.vCounter = countV ops := v1
      obtain ⟨r1, r2, r3, r4, r5, r6, r7⟩ := reconcileQuadsColors_spec sPre.quads (by omega)
      obtain ⟨t1, t2, t3, t4⟩ := reconcileQuadsTc_colors (reconcileQuadsColors sPre.quads)
      have hq : (rlEnd cfg sPre).quads = reconcileQuads sPre.quads := hb
      have hq2 : reconcileQuads sPre.quads =
          reconcileQuadsTc (reconcileQuadsColors sPre.quads) := rfl
      refine ⟨?_, ?_, ?_, ?_⟩
      · show (rlEnd cfg sPre).quads.cCounter = countV ops
        rw [hq, hq2, t2, r1, hvv]
      · show (rlEnd cfg sPre).quads.vCounter = countV ops
        rw [hq, hq2, t3, r4, hvv]
      · intro i h1 h2
        show colorEntryZ (rlEnd cfg sPre).quads.colors i =
          colorEntryZ (rlEnd cfg sPre).quads.colors ((countC ops : ℤ) - 1)
        rw [hq, hq2, t1]
        rw [r3 i (by omega) (by omega)]
        unfold colorEntryZ
        rw [r2 _ (by omega), r2 _ (by omega), r2 _ (by omega), r2 _ (by omega)]
        rw [hcc]
      · show (rlEnd cfg sPre).quads.vertices = sPre.quads.vertices
        rw [hq, hq2, t4, r5]

/-- The `M = 0` scenario, parametrized by the value held in the heap
outside the color arrays: one lines shape with one vertex and no color
call, ended. -/
def runM0 (v : ℕ) : GlState :=
  rlEnd cfgW (shapeRun cfgW .RL_LINES [.vertex 0 0 0] 1 (fun _ => v) (fun _ => 0))

/-- Counterexample to claim C2 as stated: with `M = 0` color calls the
reconciled color entry 0 is not a defined default — it is read from
before the start of the color array, so two runs differing only in the
heap contents outside the array produce different colors. -/
theorem C2_counterexample :
    ¬ ∃ d : ℕ × ℕ × ℕ × ℕ, ∀ v : ℕ,
      colorEntryZ (runM0 v).lines.colors 0 = d := by
  rintro ⟨d, hd⟩
  have h7 := hd 7
  have h9 := hd 9
  have e7 : colorEntryZ (runM0 7).lines.colors 0 = (7, 7, 7, 7) := by decide
  have e9 : colorEntryZ (runM0 9).lines.colors 0 = (9, 9, 9, 9) := by decide
  rw [e7] at h7
  rw [e9] at h9
  have hbad : ((7 : ℕ), (7 : ℕ), (7 : ℕ), (7 : ℕ)) = (9, 9, 9, 9) := h7.trans h9.symm
  simp at hbad

/-- The shape used by the C2 witness: three vertices and one
interleaved color call (N = 3, M = 1). -/
def opsC2 : List Op :=
  [.vertex 0 0 0, .color 10 20 30 40, .vertex 1 1 1, .vertex 2 2 2]

/-- Witness for C2 at a concrete lines shape. -/
theorem C2_witness :
    ((∀ o ∈ opsC2, isVertexOp o = true ∨ isColorOp o = true) ∧
      1 ≤ countC opsC2 ∧ countC opsC2 < countV opsC2 ∧
      countV opsC2 ≤ vertexCap cfgW .RL_LINES) ∧
    cCnt (rlEnd cfgW (shapeRun cfgW .RL_LINES opsC2 1 (fun _ => 0) (fun _ => 0)))
      .RL_LINES = countV opsC2 ∧
    colorEntryZ (colorsOf (rlEnd cfgW (shapeRun cfgW .RL_LINES opsC2 1
        (fun _ => 0) (fun _ => 0))) .RL_LINES) 2 =
      colorEntryZ (colorsOf (rlEnd cfgW (shapeRun cfgW .RL_LINES opsC2 1
        (fun _ => 0) (fun _ => 0))) .RL_LINES) ((countC opsC2 : ℤ) - 1) :=
  ⟨⟨by decide, by decide, by decide, by decide⟩,
    (C2_color_reconciliation cfgW .RL_LINES opsC2 1 (fun _ => 0) (fun _ => 0)
      (by decide) (by decide) (by decide) (by decide)).1,
    (C2_color_reconciliation cfgW .RL_LINES opsC2 1 (fun _ => 0) (fun _ => 0)
      (by decide) (by decide) (by decide) (by decide)).2.2.1 2 (by decide) (by decide)⟩

/-! Ledger-level characterizations of texture binds and quad-vertex
submissions, used for claims about the draw-call ledger. -/

/-- The current (last) draw-call ledger entry, `draws[drawsCounter-1]`. -/
def curDraw (s : GlState) : DrawCall := s.draws ((s.drawsCounter : ℤ) - 1)

lemma ledger_eq_append (s : GlState) (n : ℕ) (hn : s.drawsCounter = n + 1) :
    ledger s = ((List.range n).map fun i : ℕ => s.draws (i : ℤ)) ++ [s.draws (n : ℤ)] := by
  unfold ledger
  rw [hn, List.range_succ, List.map_append]
  rfl

lemma ledger_decomp (s : GlState) (n : ℕ) (hn : s.drawsCounter = n + 1)
    (L : List DrawCall) (e : DrawCall) (hl : ledger s = L ++ [e]) :
    ((List.range n).map fun i : ℕ => s.draws (i : ℤ)) = L ∧ s.draws (n : ℤ) = e := by
  have h2 := ledger_eq_append s n hn
  rw [hl] at h2
  have h3 := List.append_inj' h2.symm rfl
  refine ⟨h3.1, ?_⟩
  have h4 := h3.2
  simpa using h4

lemma map_range_update (g : ℤ → DrawCall) (c : ℕ) (e : DrawCall) :
    ((List.range c).map fun i : ℕ => Function.update g (c : ℤ) e (i : ℤ)) =
      (List.range c).map fun i : ℕ => g (i : ℤ) := by
  apply List.map_congr_left
  intro i hi
  have hi2 : i < c := List.mem_range.mp hi
  have hne : (i : ℤ) ≠ (c : ℤ) := by omega
  exact Function.update_noteq hne e g

lemma curDraw_of_ledger (s : GlState) (n : ℕ) (hn : s.drawsCounter = n + 1)
    (L : List DrawCall) (e : DrawCall) (hl : ledger s = L ++ [e]) :
    curDraw s = e := by
  have h := (ledger_decomp s n hn L e hl).2
  unfold curDraw
  rw [hn, show (((n + 1 : ℕ) : ℤ) - 1) = (n : ℤ) by push_cast; ring]
  exact h

/-- A quad-vertex submission, at ledger level: the last ledger entry's
vertex count is incremented, nothing else about the ledger changes. -/
lemma quadVertexLedger (cfg : Cfg) (x y z : ℚ) (s : GlState)
    (L : List DrawCall) (tex c : ℕ)
    (he : s.exited = false) (hf : s.useTempBuffer = false)
    (hm : s.currentDrawMode = .RL_QUADS) (hd : 1 ≤ s.drawsCounter)
    (hl : ledger s = L ++ [⟨tex, c⟩])
    (hcap : s.quads.vCounter < 4 * cfg.MAX_QUADS_BATCH) :
    (rlVertex3f cfg x y z s).exited = false ∧
    (rlVertex3f cfg x y z s).useTempBuffer = false ∧
    (rlVertex3f cfg x y z s).currentDrawMode = .RL_QUADS ∧
    (rlVertex3f cfg x y z s).drawsCounter = s.drawsCounter ∧
    ledger (rlVertex3f cfg x y z s) = L ++ [⟨tex, c + 1⟩] ∧
    (rlVertex3f cfg x y z s).quads.vCounter = s.quads.vCounter + 1 := by
  obtain ⟨n, hn⟩ : ∃ n, s.drawsCounter = n + 1 := ⟨s.drawsCounter - 1, by omega⟩
  obtain ⟨hL, hlast⟩ := ledger_decomp s n hn L _ hl
  have hcast : ((s.drawsCounter : ℤ) - 1) = (n : ℤ) := by rw [hn]; push_cast; ring
  rw [rlVertex3f_quads_accept cfg x y z s he hf hm hcap]
  refine ⟨he, hf, hm, rfl, ?_, rfl⟩
  rw [ledger_eq_append _ n (by exact hn)]
  dsimp only
  rw [hcast, Function.update_same]
  rw [show ((List.range n).map fun i : ℕ =>
      Function.update s.draws (n : ℤ)
        { s.draws (n : ℤ) with vertexCount := (s.draws (n : ℤ)).vertexCount + 1 } (i : ℤ)) =
    (List.range n).map fun i : ℕ => s.draws (i : ℤ) from map_range_update _ n _]
  rw [hL, hlast]

/-- A texture bind that differs from the current entry's texture while
that entry has vertices: appends a fresh `(id, 0)` entry. -/
lemma quadBindAppendLedger (id : ℕ) (s : GlState) (L : List DrawCall) (tex c : ℕ)
    (he : s.exited = false) (hd : 1 ≤ s.drawsCounter)
    (hl : ledger s = L ++ [⟨tex, c⟩]) (hne : tex ≠ id) (hc : 0 < c) :
    (rlEnableTexture id s).exited = false ∧
    (rlEnableTexture id s).useTempBuffer = s.useTempBuffer ∧
    (rlEnableTexture id s).currentDrawMode = s.currentDrawMode ∧
    (rlEnableTexture id s).drawsCounter = s.drawsCounter + 1 ∧
    ledger (rlEnableTexture id s) = (L ++ [⟨tex, c⟩]) ++ [⟨id, 0⟩] ∧
    (rlEnableTexture id s).quads = s.quads := by
  obtain ⟨n, hn⟩ : ∃ n, s.drawsCounter = n + 1 := ⟨s.drawsCounter - 1, by omega⟩
  have hcur : curDraw s = ⟨tex, c⟩ := curDraw_of_ledger s n hn L _ hl
  have hne2 : (s.draws ((s.drawsCounter : ℤ) - 1)).textureId ≠ id := by
    show (curDraw s).textureId ≠ id
    rw [hcur]
    exact hne
  have hc2 : 0 < (s.draws ((s.drawsCounter : ℤ) - 1)).vertexCount := by
    show 0 < (curDraw s).vertexCount
    rw [hcur]
    exact hc
  rw [rlEnableTexture_append id s he hne2 hc2]
  refine ⟨he, rfl, rfl, rfl, ?_, rfl⟩
  rw [ledger_eq_append _ (n + 1) (by dsimp only; omega)]
  dsimp only
  have hcast : (((s.drawsCounter + 1 : ℕ) : ℤ) - 1) = ((n + 1 : ℕ) : ℤ) := by
    rw [hn]; push_cast; ring
  rw [hcast, Function.update_same]
  rw [show ((List.range (n + 1)).map fun i : ℕ =>
      Function.update s.draws ((n + 1 : ℕ) : ℤ) ⟨id, 0⟩ (i : ℤ)) =
    (List.range (n + 1)).map fun i : ℕ => s.draws (i : ℤ) from map_range_update _ (n + 1) _]
  rw [show ((List.range (n + 1)).map fun i : ℕ => s.draws (i : ℤ)) = ledger s from by
    unfold ledger; rw [hn], hl]

/-- A texture bind that differs from the current entry's texture while
that entry is empty: the current entry is reused and becomes
`(id, 0)`. -/
lemma quadBindReuseLedger (id : ℕ) (s : GlState) (L : List DrawCall) (tex : ℕ)
    (he : s.exited = false) (hd : 1 ≤ s.drawsCounter)
    (hl : ledger s = L ++ [⟨tex, 0⟩]) (hne : tex ≠ id) :
    (rlEnableTexture id s).exited = false ∧
    (rlEnableTexture id s).useTempBuffer = s.useTempBuffer ∧
    (rlEnableTexture id s).currentDrawMode = s.currentDrawMode ∧
    (rlEnableTexture id s).drawsCounter = s.drawsCounter ∧
    ledger (rlEnableTexture id s) = L ++ [⟨id, 0⟩] ∧
    (rlEnableTexture id s).quads = s.quads := by
  obtain ⟨n, hn⟩ : ∃ n, s.drawsCounter = n + 1 := ⟨s.drawsCounter - 1, by omega⟩
  obtain ⟨hL, hlast⟩ := ledger_decomp s n hn L _ hl
  have hcur : curDraw s = ⟨tex, 0⟩ := curDraw_of_ledger s n hn L _ hl
  have hne2 : (s.draws ((s.drawsCounter : ℤ) - 1)).textureId ≠ id := by
    show (curDraw s).textureId ≠ id
    rw [hcur]
    exact hne
  have hc2 : (s.draws ((s.drawsCounter : ℤ) - 1)).vertexCount = 0 := by
    show (curDraw s).vertexCount = 0
    rw [hcur]
  rw [rlEnableTexture_reuse id s he hne2 hc2]
  refine ⟨he, rfl, rfl, rfl, ?_, rfl⟩
  rw [ledger_eq_append _ n (by dsimp only; omega)]
  dsimp only
  have hcast : ((s.drawsCounter : ℤ) - 1) = (n : ℤ) := by rw [hn]; push_cast; ring
  rw [hcast, Function.update_same]
  rw [show ((List.range n).map fun i : ℕ =>
      Function.update s.draws (n : ℤ) ⟨id, 0⟩ (i : ℤ)) =
    (List.range n).map fun i : ℕ => s.draws (i : ℤ) from map_range_update _ n _]
  rw [hL]

/-- `k` quad-vertex submissions in a row, at ledger level. -/
lemma quadVerticesLedger (cfg : Cfg) (k : ℕ) :
    ∀ (s : GlState) (L : List DrawCall) (tex c : ℕ),
      s.exited = false → s.useTempBuffer = false →
      s.currentDrawMode = .RL_QUADS → 1 ≤ s.drawsCounter →
      ledger s = L ++ [⟨tex, c⟩] →
      s.quads.vCounter + k ≤ 4 * cfg.MAX_QUADS_BATCH →
      (runOps cfg (List.replicate k (.vertex 0 0 0)) s).exited = false ∧
      (runOps cfg (List.replicate k (.vertex 0 0 0)) s).useTempBuffer = false ∧
      (runOps cfg (List.replicate k (.vertex 0 0 0)) s).currentDrawMode = .RL_QUADS ∧
      (runOps cfg (List.replicate k (.vertex 0 0 0)) s).drawsCounter = s.drawsCounter ∧
      ledger (runOps cfg (List.replicate k (.vertex 0 0 0)) s) = L ++ [⟨tex, c + k⟩] ∧
      (runOps cfg (List.replicate k (.vertex 0 0 0)) s).quads.vCounter =
        s.quads.vCounter + k := by
  induction k with
  | zero =>
      intro s L tex c he hf hm hd hl _
      exact ⟨he, hf, hm, rfl, by simpa using hl, rfl⟩
  | succ k ih =>
      intro s L tex c he hf hm hd hl hcap
      have hstep := quadVertexLedger cfg 0 0 0 s L tex c he hf hm hd hl (by omega)
      obtain ⟨e1, f1, m1, d1, l1, v1⟩ := hstep
      have hrep : List.replicate (k + 1) (Op.vertex 0 0 0) =
          Op.vertex 0 0 0 :: List.replicate k (.vertex 0 0 0) := rfl
      rw [hrep]
      have hrun : runOps cfg (Op.vertex 0 0 0 :: List.replicate k (.vertex 0 0 0)) s =
          runOps cfg (List.replicate k (.vertex 0 0 0)) (rlVertex3f cfg 0 0 0 s) := rfl
      rw [hrun]
      have hih := ih (rlVertex3f cfg 0 0 0 s) L tex (c + 1) e1 f1 m1 (by omega) l1
        (by omega)
      obtain ⟨e2, f2, m2, d2, l2, v2⟩ := hih
      refine ⟨e2, f2, m2, by omega, ?_, by omega⟩
      rw [l2]
      have : c + 1 + k = c + (k + 1) := by omega
      rw [this]

lemma runOps_append (cfg : Cfg) (l1 l2 : List Op) (s : GlState) :
    runOps cfg (l1 ++ l2) s = runOps cfg l2 (runOps cfg l1 s) := by
  unfold runOps
  exact List.foldl_append _ _ l1 l2

/-- The C4 scenario: bind texture A, submit 1 quad, bind texture B,
submit 1 quad, bind texture A again, submit 1 quad. -/
def scenarioOps (A B : ℕ) : List Op :=
  [.enableTexture A] ++ List.replicate 4 (.vertex 0 0 0) ++
  [.enableTexture B] ++ List.replicate 4 (.vertex 0 0 0) ++
  [.enableTexture A] ++ List.replicate 4 (.vertex 0 0 0)

lemma runOps_singleton (cfg : Cfg) (o : Op) (s : GlState) :
    runOps cfg [o] s = stepOp cfg s o := rfl

lemma scenario_split (cfg : Cfg) (white A B : ℕ) (junk : ℤ → ℕ) (junkF : ℤ → ℚ) :
    shapeRun cfg .RL_QUADS (scenarioOps A B) white junk junkF =
      runOps cfg (List.replicate 4 (.vertex 0 0 0)) (rlEnableTexture A
        (runOps cfg (List.replicate 4 (.vertex 0 0 0)) (rlEnableTexture B
          (runOps cfg (List.replicate 4 (.vertex 0 0 0)) (rlEnableTexture A
            (rlBegin .RL_QUADS (initialState cfg white junk junkF))))))) := by
  unfold shapeRun scenarioOps
  rw [runOps_append, runOps_append, runOps_append, runOps_append, runOps_append]
  simp only [runOps_singleton, stepOp]

lemma begin_quads_facts (cfg : Cfg) (white : ℕ) (junk : ℤ → ℕ) (junkF : ℤ → ℚ) :
    (rlBegin .RL_QUADS (initialState cfg white junk junkF)).exited = false ∧
    (rlBegin .RL_QUADS (initialState cfg white junk junkF)).useTempBuffer = false ∧
    (rlBegin .RL_QUADS (initialState cfg white junk junkF)).currentDrawMode = .RL_QUADS ∧
    (rlBegin .RL_QUADS (initialState cfg white junk junkF)).drawsCounter = 1 ∧
    (rlBegin .RL_QUADS (initialState cfg white junk junkF)).quads.vCounter = 0 ∧
    ledger (rlBegin .RL_QUADS (initialState cfg white junk junkF)) =
      [] ++ [⟨white, 0⟩] := by
  exact ⟨rfl, rfl, rfl, rfl, rfl, rfl⟩

/-- Claim C4: `rlEnableTexture` with the current entry's own texture is
a no-op on the whole state; with a differing handle it appends a fresh
`(id, 0)` entry when the current entry has vertices and otherwise
reuses the current empty entry, the current entry becoming `(id, 0)` in
both cases; and the scenario bind A / 1 quad / bind B / 1 quad /
bind A / 1 quad produces exactly the three ledger entries
`(A,4), (B,4), (A,4)`. -/
theorem C4_enable_texture_spec :
    (∀ (s : GlState) (id : ℕ),
      (curDraw s).textureId = id → rlEnableTexture id s = s) ∧
    (∀ (s : GlState) (id : ℕ) (L : List DrawCall) (tex c : ℕ),
      s.exited = false → 1 ≤ s.drawsCounter →
      s.drawsCounter < MAX_DRAWS_BY_TEXTURE →
      ledger s = L ++ [⟨tex, c⟩] → tex ≠ id →
      (0 < c → ledger (rlEnableTexture id s) = (L ++ [⟨tex, c⟩]) ++ [⟨id, 0⟩] ∧
        (rlEnableTexture id s).drawsCounter = s.drawsCounter + 1) ∧
      (c = 0 → ledger (rlEnableTexture id s) = L ++ [⟨id, 0⟩] ∧
        (rlEnableTexture id s).drawsCounter = s.drawsCounter)) ∧
    (∀ (cfg : Cfg) (white A B : ℕ) (junk : ℤ → ℕ) (junkF : ℤ → ℚ),
      A ≠ B → 3 ≤ cfg.MAX_QUADS_BATCH →
      ledger (shapeRun cfg .RL_QUADS (scenarioOps A B) white junk junkF) =
        [⟨A, 4⟩, ⟨B, 4⟩, ⟨A, 4⟩]) := by
  refine ⟨?_, ?_, ?_⟩
  · intro s id h
    exact rlEnableTexture_same id s h
  · intro s id L tex c he hd hdc hl hne
    constructor
    · intro hc
      have h := quadBindAppendLedger id s L tex c he hd hl hne hc
      exact ⟨h.2.2.2.2.1, h.2.2.2.1⟩
    · intro hc
      cases hc
      have h := quadBindReuseLedger id s L tex he hd hl hne
      exact ⟨h.2.2.2.2.1, h.2.2.2.1⟩
  · intro cfg white A B junk junkF hAB hcap
    rw [scenario_split cfg white A B junk junkF]
    obtain ⟨e0, f0, m0, d0, v0, l0⟩ := begin_quads_facts cfg white junk junkF
    set s0 := rlBegin .RL_QUADS (initialState cfg white junk junkF) with hs0
    -- phase 1: bind A (reuse or no-op, depending on whether white = A)
    have p1 : (rlEnableTexture A s0).exited = false ∧
        (rlEnableTexture A s0).useTempBuffer = false ∧
        (rlEnableTexture A s0).currentDrawMode = .RL_QUADS ∧
        1 ≤ (rlEnableTexture A s0).drawsCounter ∧
        ledger (rlEnableTexture A s0) = [] ++ [⟨A, 0⟩] ∧
        (rlEnableTexture A s0).quads.vCounter = 0 := by
      by_cases hwA : white = A
      · have hsame : (curDraw s0).textureId = A := by
          rw [curDraw_of_ledger s0 0 d0 [] ⟨white, 0⟩ l0]
          exact hwA
        rw [rlEnableTexture_same A s0 hsame]
        refine ⟨e0, f0, m0, by omega, ?_, v0⟩
        rw [l0, hwA]
      · have h := quadBindReuseLedger A s0 [] white e0 (by omega) l0 hwA
        refine ⟨h.1, by rw [h.2.1]; exact f0, by rw [h.2.2.1]; exact m0,
          by rw [h.2.2.2.1]; omega, h.2.2.2.2.1, by rw [h.2.2.2.2.2]; exact v0⟩
    obtain ⟨e1, f1, m1, d1, l1, v1⟩ := p1
    -- phase 2: 4 vertices on texture A
    have p2 := quadVerticesLedger cfg 4 (rlEnableTexture A s0) [] A 0 e1 f1 m1 d1 l1
      (by rw [v1]; omega)
    obtain ⟨e2, f2, m2, d2, l2, v2⟩ := p2
    set s2 := runOps cfg (List.replicate 4 (.vertex 0 0 0)) (rlEnableTexture A s0)
    -- phase 3: bind B (append, since A ≠ B and current count is 4)
    have p3 := quadBindAppendLedger B s2 [] A 4 e2 (by omega)
      (by rw [l2]) hAB (by omega)
    obtain ⟨e3, f3, m3, d3, l3, q3⟩ := p3
    set s3 := rlEnableTexture B s2
    -- phase 4: 4 vertices on texture B
    have p4 := quadVerticesLedger cfg 4 s3 [⟨A, 4⟩] B 0 e3
      (by rw [f3]; exact f2) (by rw [m3]; exact m2) (by omega)
      (by rw [l3]; rfl) (by rw [q3, v2, v1]; omega)
    obtain ⟨e4, f4, m4, d4, l4, v4⟩ := p4
    set s4 := runOps cfg (List.replicate 4 (.vertex 0 0 0)) s3
    -- phase 5: bind A (append, since B ≠ A and current count is 4)
    have p5 := quadBindAppendLedger A s4 [⟨A, 4⟩] B 4 e4 (by omega)
      (by rw [l4]) (fun h => hAB h.symm) (by omega)
    obtain ⟨e5, f5, m5, d5, l5, q5⟩ := p5
    set s5 := rlEnableTexture A s4
    -- phase 6: 4 vertices on texture A
    have p6 := quadVerticesLedger cfg 4 s5 [⟨A, 4⟩, ⟨B, 4⟩] A 0 e5
      (by rw [f5]; exact f4) (by rw [m5]; exact m4) (by omega)
      (by rw [l5]; rfl)
      (by rw [q5, v4, q3, v2, v1]; omega)
    obtain ⟨e6, f6, m6, d6, l6, v6⟩ := p6
    rw [l6]
    rfl

/-- Witness for C4 at concrete states and textures. -/
theorem C4_witness :
    ((curDraw sInit).textureId = 1 ∧ rlEnableTexture 1 sInit = sInit) ∧
    ((5 : ℕ) ≠ 7 ∧ 3 ≤ cfgW.MAX_QUADS_BATCH ∧
      ledger (shapeRun cfgW .RL_QUADS (scenarioOps 5 7) 1 (fun _ => 0) (fun _ => 0)) =
        [⟨5, 4⟩, ⟨7, 4⟩, ⟨5, 4⟩]) :=
  ⟨⟨by decide, C4_enable_texture_spec.1 sInit 1 (by decide)⟩,
    ⟨by decide, by decide,
      C4_enable_texture_spec.2.2 cfgW 1 5 7 (fun _ => 0) (fun _ => 0)
        (by decide) (by decide)⟩⟩

/-! The precomputed quad index pattern and the per-ledger-entry draw
loop of `rlglDraw`. -/

lemma writeQuadIndexGroup_reads (f : ℕ → ℕ) (i k : ℕ) :
    writeQuadIndexGroup f i k i = 4 * k ∧
    writeQuadIndexGroup f i k (i + 1) = 4 * k + 1 ∧
    writeQuadIndexGroup f i k (i + 2) = 4 * k + 2 ∧
    writeQuadIndexGroup f i k (i + 3) = 4 * k ∧
    writeQuadIndexGroup f i k (i + 4) = 4 * k + 2 ∧
    writeQuadIndexGroup f i k (i + 5) = 4 * k + 3 := by
  unfold writeQuadIndexGroup
  refine ⟨?_, ?_, ?_, ?_, ?_, ?_⟩
  · rw [Function.update_noteq (by omega), Function.update_noteq (by omega),
      Function.update_noteq (by omega), Function.update_noteq (by omega),
      Function.update_noteq (by omega), Function.update_same]
  · rw [Function.update_noteq (by omega), Function.update_noteq (by omega),
      Function.update_noteq (by omega), Function.update_noteq (by omega),
      Function.update_same]
  · rw [Function.update_noteq (by omega), Function.update_noteq (by omega),
      Function.update_noteq (by omega), Function.update_same]
  · rw [Function.update_noteq (by omega), Function.update_noteq (by omega),
      Function.update_same]
  · rw [Function.update_noteq (by omega), Function.update_same]
  · rw [Function.update_same]

lemma writeQuadIndexGroup_lower (f : ℕ → ℕ) (i k p : ℕ) (h : p < i) :
    writeQuadIndexGroup f i k p = f p := by
  unfold writeQuadIndexGroup
  rw [Function.update_noteq (by omega), Function.update_noteq (by omega),
    Function.update_noteq (by omega), Function.update_noteq (by omega),
    Function.update_noteq (by omega), Function.update_noteq (by omega)]

lemma loadQuadIndicesGo_lower :
    ∀ (g i k : ℕ) (f : ℕ → ℕ) (p : ℕ), p < i → loadQuadIndicesGo g i k f p = f p := by
  intro g
  induction g with
  | zero => intro i k f p _; rfl
  | succ g ih =>
      intro i k f p h
      unfold loadQuadIndicesGo
      rw [ih (i + 6) (k + 1) _ p (by omega)]
      exact writeQuadIndexGroup_lower f i k p h

lemma loadQuadIndicesGo_group :
    ∀ (g i k : ℕ) (f : ℕ → ℕ) (j : ℕ), j < g →
      loadQuadIndicesGo g i k f (i + 6 * j) = 4 * (k + j) ∧
      loadQuadIndicesGo g i k f (i + 6 * j + 1) = 4 * (k + j) + 1 ∧
      loadQuadIndicesGo g i k f (i + 6 * j + 2) = 4 * (k + j) + 2 ∧
      loadQuadIndicesGo g i k f (i + 6 * j + 3) = 4 * (k + j) ∧
      loadQuadIndicesGo g i k f (i + 6 * j + 4) = 4 * (k + j) + 2 ∧
      loadQuadIndicesGo g i k f (i + 6 * j + 5) = 4 * (k + j) + 3 := by
  intro g
  induction g with
  | zero => intro i k f j h; omega
  | succ g ih =>
      intro i k f j h
      unfold loadQuadIndicesGo
      rcases Nat.eq_zero_or_pos j with hj | hj
      · subst hj
        obtain ⟨w0, w1, w2, w3, w4, w5⟩ := writeQuadIndexGroup_reads f i k
        refine ⟨?_, ?_, ?_, ?_, ?_, ?_⟩ <;>
          simp only [Nat.mul_zero, Nat.add_zero] <;>
          rw [loadQuadIndicesGo_lower g (i + 6) (k + 1) _ _ (by omega)] <;>
          assumption
      · obtain ⟨j1, hj1⟩ : ∃ j1, j = j1 + 1 := ⟨j - 1, by omega⟩
        subst hj1
        have h6 := ih (i + 6) (k + 1) (writeQuadIndexGroup f i k) j1 (by omega)
        obtain ⟨w0, w1, w2, w3, w4, w5⟩ := h6
        have e0 : i + 6 * (j1 + 1) = i + 6 + 6 * j1 := by omega
        have e1 : k + (j1 + 1) = k + 1 + j1 := by omega
        rw [e0, e1]
        exact ⟨w0, w1, w2, w3, w4, w5⟩

/-- Whether a GPU command is an indexed quad draw. -/
def isQuadDrawCmd : GpuCmd → Bool
  | .drawQuads _ _ _ => true
  | _ => false

lemma filter_quadDrawCmds (l : List DrawCall) (off : ℕ) :
    (quadDrawCmds l off).filter isQuadDrawCmd = quadDrawCmds l off := by
  induction l generalizing off with
  | nil => rfl
  | cons e rest ih =>
      unfold quadDrawCmds
      rw [List.filter_cons]
      rw [if_pos (by rfl)]
      rw [ih]

lemma rlglDraw_filter (s : GlState) (he : s.exited = false)
    (hq : 0 < s.quads.vCounter) :
    (rlglDraw s).2.filter isQuadDrawCmd = quadDrawCmds (ledger s) 0 := by
  unfold rlglDraw
  rw [if_neg (by simp [he])]
  dsimp only
  rw [if_pos hq]
  rw [List.filter_append, List.filter_append, List.filter_append, List.filter_append]
  rw [filter_quadDrawCmds]
  have hu : (updateDefaultBuffersCmds s).filter isQuadDrawCmd = [] := by
    unfold updateDefaultBuffersCmds
    rw [List.filter_append, List.filter_append]
    have h1 : ((if 0 < s.lines.vCounter then
        [GpuCmd.uploadLines s.lines.vCounter s.lines.cCounter] else []).filter
          isQuadDrawCmd) = [] := by
      split <;> rfl
    have h2 : ((if 0 < s.triangles.vCounter then
        [GpuCmd.uploadTriangles s.triangles.vCounter s.triangles.cCounter] else []).filter
          isQuadDrawCmd) = [] := by
      split <;> rfl
    have h3 : ((if 0 < s.quads.vCounter then
        [GpuCmd.uploadQuads s.quads.vCounter] else []).filter isQuadDrawCmd) = [] := by
      split <;> rfl
    rw [h1, h2, h3]
    rfl
  have hs2 : ((if 0 < s.lines.vCounter ∨ 0 < s.triangles.vCounter ∨ 0 < s.quads.vCounter
      then [GpuCmd.setUniforms] else []).filter isQuadDrawCmd) = [] := by
    split <;> rfl
  have hl2 : ((if 0 < s.lines.vCounter then [GpuCmd.drawLines s.lines.vCounter]
      else []).filter isQuadDrawCmd) = [] := by
    split <;> rfl
  have ht2 : ((if 0 < s.triangles.vCounter then [GpuCmd.drawTriangles s.triangles.vCounter]
      else []).filter isQuadDrawCmd) = [] := by
    split <;> rfl
  rw [hu, hs2, hl2, ht2]
  rfl

lemma quadDrawCmds_get :
    ∀ (l1 : List DrawCall) (off : ℕ) (e : DrawCall) (l2 : List DrawCall),
      (quadDrawCmds (l1 ++ e :: l2) off).get? l1.length =
        some (.drawQuads e.textureId (e.vertexCount / 4 * 6)
          (off + (l1.map fun q => q.vertexCount / 4 * 6).sum)) := by
  intro l1
  induction l1 with
  | nil =>
      intro off e l2
      rfl
  | cons a l1 ih =>
      intro off e l2
      have hcons : (a :: l1) ++ e :: l2 = a :: (l1 ++ e :: l2) := rfl
      rw [hcons]
      unfold quadDrawCmds
      have hlen : (a :: l1).length = l1.length + 1 := rfl
      rw [hlen]
      rw [List.get?_cons_succ]
      rw [ih (off + a.vertexCount / 4 * 6) e l2]
      congr 1
      congr 1
      rw [List.map_cons, List.sum_cons]
      omega

/-- Claim C5: the quad index sextuple for quad `k` generated at
initialization is exactly `(4k, 4k+1, 4k+2, 4k, 4k+2, 4k+3)` for every
`k < maxQuadCapacity`; and at flush time the quad pass iterates the
ledger in order, entry `j` issuing one indexed draw whose index count is
`(vertexCount / 4) * 6` and whose index offset is the sum of the index
counts of all earlier entries. -/
theorem C5_index_pattern_and_draw_loop (maxQuads : ℕ) (s : GlState)
    (he : s.exited = false) (hq : 0 < s.quads.vCounter) :
    (∀ k, k < maxQuads →
      loadQuadIndices maxQuads (6 * k) = 4 * k ∧
      loadQuadIndices maxQuads (6 * k + 1) = 4 * k + 1 ∧
      loadQuadIndices maxQuads (6 * k + 2) = 4 * k + 2 ∧
      loadQuadIndices maxQuads (6 * k + 3) = 4 * k ∧
      loadQuadIndices maxQuads (6 * k + 4) = 4 * k + 2 ∧
      loadQuadIndices maxQuads (6 * k + 5) = 4 * k + 3) ∧
    ((rlglDraw s).2.filter isQuadDrawCmd = quadDrawCmds (ledger s) 0) ∧
    (∀ (l1 : List DrawCall) (e : DrawCall) (l2 : List DrawCall),
      ledger s = l1 ++ e :: l2 →
      (quadDrawCmds (ledger s) 0).get? l1.length =
        some (.drawQuads e.textureId (e.vertexCount / 4 * 6)
          ((l1.map fun q => q.vertexCount / 4 * 6).sum))) := by
  refine ⟨?_, rlglDraw_filter s he hq, ?_⟩
  · intro k hk
    have h := loadQuadIndicesGo_group maxQuads 0 0 (fun _ => 0) k hk
    simpa [loadQuadIndices] using h
  · intro l1 e l2 hl
    rw [hl]
    have h := quadDrawCmds_get l1 0 e l2
    simpa using h

/-- Witness for C5 at a concrete state and capacity. -/
theorem C5_witness :
    (sPreC3.exited = false ∧ 0 < sPreC3.quads.vCounter) ∧
    (loadQuadIndices 2 6 = 4 ∧ loadQuadIndices 2 7 = 5 ∧ loadQuadIndices 2 8 = 6 ∧
      loadQuadIndices 2 9 = 4 ∧ loadQuadIndices 2 10 = 6 ∧ loadQuadIndices 2 11 = 7) ∧
    ((rlglDraw sPreC3).2.filter isQuadDrawCmd = quadDrawCmds (ledger sPreC3) 0) ∧
    (quadDrawCmds (ledger sPreC3) 0).get? 0 =
      some (.drawQuads (1 : ℕ) 6 0) := by
  have h := C5_index_pattern_and_draw_loop 2 sPreC3 (by decide) (by decide)
  refine ⟨⟨by decide, by decide⟩, ?_, h.2.1, ?_⟩
  · have h1 := h.1 1 (by decide)
    simpa using h1
  · have h2 := h.2.2 [] ⟨1, 4⟩ [] (by decide)
    simpa using h2

lemma stepShape_log (cfg : Cfg) (s : GlState) (o : Op) (t : DrawMode)
    (ho : isShapeOp o = true)
    (he : s.exited = false) (hf : s.useTempBuffer = false)
    (hm : s.currentDrawMode = t)
    (hcap : vCnt s t + opV o ≤ vertexCap cfg t) :
    (stepOp cfg s o).log = s.log := by
  cases o with
  | vertex x y z =>
      simp only [stepOp]
      have hcap2 : vCnt s t + 1 ≤ vertexCap cfg t := hcap
      cases t with
      | RL_LINES =>
          rw [rlVertex3f_lines_accept cfg x y z s he hf hm
            (by simp only [vCnt, vertexCap] at hcap2; omega)]
      | RL_TRIANGLES =>
          rw [rlVertex3f_triangles_accept cfg x y z s he hf hm
            (by simp only [vCnt, vertexCap] at hcap2; omega)]
      | RL_QUADS =>
          rw [rlVertex3f_quads_accept cfg x y z s he hf hm
            (by simp only [vCnt, vertexCap] at hcap2; omega)]
  | color r g b a =>
      simp only [stepOp]
      cases t with
      | RL_LINES => rw [rlColor4ub_lines r g b a s he hm]
      | RL_TRIANGLES => rw [rlColor4ub_triangles r g b a s he hm]
      | RL_QUADS => rw [rlColor4ub_quads r g b a s he hm]
  | texcoord u v =>
      simp only [stepOp]
      cases t with
      | RL_LINES => rw [rlTexCoord2f_other u v s (by rw [hm]; intro h; cases h)]
      | RL_TRIANGLES => rw [rlTexCoord2f_other u v s (by rw [hm]; intro h; cases h)]
      | RL_QUADS => rw [rlTexCoord2f_quads u v s he hm]
  | enableTexture id =>
      simp only [stepOp]
      by_cases hsame : (s.draws ((s.drawsCounter : ℤ) - 1)).textureId = id
      · rw [rlEnableTexture_same id s hsame]
      · by_cases hc : 0 < (s.draws ((s.drawsCounter : ℤ) - 1)).vertexCount
        · rw [rlEnableTexture_append id s he hsame hc]
        · rw [rlEnableTexture_reuse id s he hsame (by omega)]
  | matrixMode m => cases ho
  | pushMatrix => cases ho
  | popMatrix => cases ho
  | loadIdentity => cases ho
  | begin m => cases ho
  | stop => cases ho
  | draw => cases ho

lemma runShape_log (cfg : Cfg) :
    ∀ (ops : List Op) (s : GlState) (t : DrawMode),
      (∀ o ∈ ops, isShapeOp o = true) →
      s.exited = false → s.useTempBuffer = false → s.currentDrawMode = t →
      1 ≤ s.drawsCounter →
      vCnt s t + countV ops ≤ vertexCap cfg t →
      (runOps cfg ops s).log = s.log := by
  intro ops
  induction ops with
  | nil => intro s t _ _ _ _ _ _; rfl
  | cons o rest ih =>
      intro s t hall he hf hm hd hcap
      have hallr : ∀ q ∈ rest, isShapeOp q = true := fun q hq => hall q (by simp [hq])
      have hco : isShapeOp o = true := hall o (by simp)
      rw [countV_cons] at hcap
      obtain ⟨e1, f1, m1, d1, v1, _⟩ := stepShape_spec cfg s o t hco he hf hm hd (by omega)
      have hrun : runOps cfg (o :: rest) s = runOps cfg rest (stepOp cfg s o) := rfl
      rw [hrun, ih (stepOp cfg s o) t hallr e1 f1 m1 d1 (by rw [v1]; omega),
        stepShape_log cfg s o t hco he hf hm (by omega)]

lemma traceLog_buffers (t : LogType) (msg : String) (s : GlState) :
    (traceLog t msg s).lines = s.lines ∧
    (traceLog t msg s).triangles = s.triangles ∧
    (traceLog t msg s).quads = s.quads := by
  unfold traceLog
  split
  · exact ⟨rfl, rfl, rfl⟩
  · split <;> exact ⟨rfl, rfl, rfl⟩

lemma vCnt_traceLog (lt : LogType) (msg : String) (s : GlState) (t : DrawMode) :
    vCnt (traceLog lt msg s) t = vCnt s t := by
  obtain ⟨h1, h2, h3⟩ := traceLog_buffers lt msg s
  cases t <;> simp [vCnt, h1, h2, h3]

/-- Claim C6 (amended): submitting `capacity + 1` vertices to a topology
retains exactly `capacity` vertices and the dropped submission writes
nothing — the final state is literally the saturated state passed
through `TraceLog` — but the overflow is logged at `ERROR` severity
(not warning), which terminates the process; and a texture switch with
the ledger at its fixed `MAX_DRAWS_BY_TEXTURE` capacity performs no
capacity check at all: it is not dropped and not logged, the entry
count exceeds the capacity, and the new entry is written one slot past
the end of the ledger array. -/
theorem C6_capacity_saturation (cfg : Cfg) (white : ℕ) (junk : ℤ → ℕ)
    (junkF : ℤ → ℚ) (t : DrawMode) :
    (runOps cfg (List.replicate (vertexCap cfg t + 1) (.vertex 0 0 0))
        (rlBegin t (initialState cfg white junk junkF)) =
      traceLog .ERROR (overflowMsg t)
        (runOps cfg (List.replicate (vertexCap cfg t) (.vertex 0 0 0))
          (rlBegin t (initialState cfg white junk junkF)))) ∧
    vCnt (runOps cfg (List.replicate (vertexCap cfg t + 1) (.vertex 0 0 0))
      (rlBegin t (initialState cfg white junk junkF))) t = vertexCap cfg t ∧
    (runOps cfg (List.replicate (vertexCap cfg t + 1) (.vertex 0 0 0))
      (rlBegin t (initialState cfg white junk junkF))).exited = true ∧
    (runOps cfg (List.replicate (vertexCap cfg t + 1) (.vertex 0 0 0))
      (rlBegin t (initialState cfg white junk junkF))).log =
        [(.ERROR, overflowMsg t)] ∧
    (∀ (s : GlState) (id : ℕ), s.exited = false →
      s.drawsCounter = MAX_DRAWS_BY_TEXTURE →
      (curDraw s).textureId ≠ id → 0 < (curDraw s).vertexCount →
      (rlEnableTexture id s).drawsCounter = MAX_DRAWS_BY_TEXTURE + 1 ∧
      (rlEnableTexture id s).log = s.log ∧
      (rlEnableTexture id s).exited = false ∧
      (rlEnableTexture id s).draws (MAX_DRAWS_BY_TEXTURE : ℤ) = ⟨id, 0⟩) := by
  obtain ⟨e0, f0, m0, d0, v0, c0⟩ := shapeRun_begin_facts cfg t white junk junkF
  have hallrep : ∀ k, ∀ o ∈ List.replicate k (Op.vertex 0 0 0), isShapeOp o = true := by
    intro k o ho
    rw [List.eq_of_mem_replicate ho]
    rfl
  have hcnt : ∀ k, countV (List.replicate k (Op.vertex 0 0 0)) = k := by
    intro k
    unfold countV
    rw [List.filter_eq_self.mpr (fun o ho => by rw [List.eq_of_mem_replicate ho]; rfl)]
    exact List.length_replicate k _
  obtain ⟨eS, fS, mS, dS, vS, _⟩ := runShape_spec cfg
    (List.replicate (vertexCap cfg t) (.vertex 0 0 0)) _ t (hallrep _) e0 f0 m0
    (by omega) (by rw [hcnt, v0]; omega)
  have hlogS := runShape_log cfg (List.replicate (vertexCap cfg t) (.vertex 0 0 0)) _ t
    (hallrep _) e0 f0 m0 (by omega) (by rw [hcnt, v0]; omega)
  have hsplit : runOps cfg (List.replicate (vertexCap cfg t + 1) (.vertex 0 0 0))
      (rlBegin t (initialState cfg white junk junkF)) =
    stepOp cfg (runOps cfg (List.replicate (vertexCap cfg t) (.vertex 0 0 0))
      (rlBegin t (initialState cfg white junk junkF))) (.vertex 0 0 0) := by
    rw [List.replicate_succ' (vertexCap cfg t) (Op.vertex 0 0 0)]
    rw [runOps_append]
    rfl
  have hdrop : stepOp cfg (runOps cfg (List.replicate (vertexCap cfg t) (.vertex 0 0 0))
      (rlBegin t (initialState cfg white junk junkF))) (.vertex 0 0 0) =
    traceLog .ERROR (overflowMsg t)
      (runOps cfg (List.replicate (vertexCap cfg t) (.vertex 0 0 0))
        (rlBegin t (initialState cfg white junk junkF))) := by
    simp only [stepOp]
    exact rlVertex3f_drop cfg 0 0 0 _ t eS fS mS (by rw [vS, v0, hcnt]; omega)
  have hmain : runOps cfg (List.replicate (vertexCap cfg t + 1) (.vertex 0 0 0))
      (rlBegin t (initialState cfg white junk junkF)) =
    traceLog .ERROR (overflowMsg t)
      (runOps cfg (List.replicate (vertexCap cfg t) (.vertex 0 0 0))
        (rlBegin t (initialState cfg white junk junkF))) := hsplit.trans hdrop
  refine ⟨hmain, ?_, ?_, ?_, ?_⟩
  · rw [hmain, vCnt_traceLog, vS, v0, hcnt]
    omega
  · rw [hmain]
    unfold traceLog
    rw [if_neg (by simp [eS]), if_pos rfl]
  · rw [hmain]
    unfold traceLog
    rw [if_neg (by simp [eS]), if_pos rfl]
    dsimp only
    rw [hlogS, (by rfl : (rlBegin t (initialState cfg white junk junkF)).log = [])]
    rfl
  · intro s id he hfull hne hc
    have h := rlEnableTexture_append id s he hne hc
    rw [h]
    refine ⟨by dsimp only; omega, rfl, he, ?_⟩
    dsimp only
    rw [show (((s.drawsCounter + 1 : ℕ) : ℤ) - 1) = (MAX_DRAWS_BY_TEXTURE : ℤ) by
      rw [hfull]; push_cast; ring]
    exact Function.update_same _ _ _

/-- Counterexample to claim C6 as stated: submitting `capacity + 1`
vertices (here 17 lines vertices with `MAX_LINES_BATCH = 8`) retains
exactly the capacity, but the overflow is logged at `ERROR` severity
with no warning-level entry, and the process exits rather than
continuing. -/
theorem C6_counterexample :
    (runOps cfgW (Op.begin .RL_LINES :: List.replicate 17 (.vertex 0 0 0)) sInit).exited
        = true ∧
    ((runOps cfgW (Op.begin .RL_LINES :: List.replicate 17 (.vertex 0 0 0))
        sInit).log.filter fun e => e.1 = .WARNING) = [] ∧
    (runOps cfgW (Op.begin .RL_LINES :: List.replicate 17 (.vertex 0 0 0))
        sInit).lines.vCounter = 16 := by decide

/-- Concrete state with the draw-call ledger exactly full, used by the
C6 witness. -/
def sFullLedger : GlState :=
  { sInit with
    drawsCounter := MAX_DRAWS_BY_TEXTURE
    draws := Function.update sInit.draws ((MAX_DRAWS_BY_TEXTURE : ℤ) - 1) ⟨3, 4⟩ }

/-- Witness for C6 at a concrete configuration, topology and state. -/
theorem C6_witness :
    vCnt (runOps cfgW (List.replicate (vertexCap cfgW .RL_LINES + 1) (.vertex 0 0 0))
      (rlBegin .RL_LINES sInit)) .RL_LINES = vertexCap cfgW .RL_LINES ∧
    (runOps cfgW (List.replicate (vertexCap cfgW .RL_LINES + 1) (.vertex 0 0 0))
      (rlBegin .RL_LINES sInit)).log = [(.ERROR, overflowMsg .RL_LINES)] ∧
    ((sFullLedger.exited = false ∧ sFullLedger.drawsCounter = MAX_DRAWS_BY_TEXTURE ∧
        (curDraw sFullLedger).textureId ≠ 5 ∧ 0 < (curDraw sFullLedger).vertexCount) ∧
      (rlEnableTexture 5 sFullLedger).drawsCounter = MAX_DRAWS_BY_TEXTURE + 1 ∧
      (rlEnableTexture 5 sFullLedger).draws (MAX_DRAWS_BY_TEXTURE : ℤ) = ⟨5, 0⟩) := by
  have h := C6_capacity_saturation cfgW 1 (fun _ => 0) (fun _ => 0) .RL_LINES
  have h2 := h.2.2.2.2 sFullLedger 5 (by decide) (by decide) (by decide) (by decide)
  exact ⟨h.2.1, h.2.2.2.1, ⟨by decide, by decide, by decide, by decide⟩,
    h2.1, h2.2.2.2⟩

/-! The deferred staging buffer: appending while the flag is raised, and
the transform-and-replay performed by `rlEnd`. -/

/-- The position stored at slot `v` of the buffer selected by a
topology. -/
def posEntry (s : GlState) (t : DrawMode) (v : ℕ) : Vec3 :=
  ⟨verticesOf s t (3 * (v : ℤ)), verticesOf s t (3 * (v : ℤ) + 1),
    verticesOf s t (3 * (v : ℤ) + 2)⟩

lemma writeVertex3_reads (f : ℤ → ℚ) (v : ℕ) (x y z : ℚ) :
    writeVertex3 f v x y z (3 * (v : ℤ)) = x ∧
    writeVertex3 f v x y z (3 * (v : ℤ) + 1) = y ∧
    writeVertex3 f v x y z (3 * (v : ℤ) + 2) = z := by
  unfold writeVertex3
  refine ⟨?_, ?_, ?_⟩
  · rw [Function.update_noteq (by omega), Function.update_noteq (by omega),
      Function.update_same]
  · rw [Function.update_noteq (by omega), Function.update_same]
  · rw [Function.update_same]

lemma writeVertex3_lower (f : ℤ → ℚ) (v : ℕ) (x y z : ℚ) (j : ℤ)
    (h : j < 3 * (v : ℤ)) : writeVertex3 f v x y z j = f j := by
  unfold writeVertex3
  rw [Function.update_noteq (by omega), Function.update_noteq (by omega),
    Function.update_noteq (by omega)]

lemma rlVertex3f_buf (cfg : Cfg) (x y z : ℚ) (s : GlState) (t : DrawMode)
    (he : s.exited = false) (hf : s.useTempBuffer = false)
    (hm : s.currentDrawMode = t) (hcap : vCnt s t < vertexCap cfg t) :
    (rlVertex3f cfg x y z s).exited = false ∧
    (rlVertex3f cfg x y z s).useTempBuffer = false ∧
    (rlVertex3f cfg x y z s).currentDrawMode = t ∧
    vCnt (rlVertex3f cfg x y z s) t = vCnt s t + 1 ∧
    verticesOf (rlVertex3f cfg x y z s) t = writeVertex3 (verticesOf s t) (vCnt s t) x y z ∧
    (rlVertex3f cfg x y z s).tempBuffer = s.tempBuffer ∧
    (rlVertex3f cfg x y z s).tempBufferCount = s.tempBufferCount := by
  cases t with
  | RL_LINES =>
      rw [rlVertex3f_lines_accept cfg x y z s he hf hm
        (by simp only [vCnt, vertexCap] at hcap; omega)]
      exact ⟨he, hf, hm, rfl, rfl, rfl, rfl⟩
  | RL_TRIANGLES =>
      rw [rlVertex3f_triangles_accept cfg x y z s he hf hm
        (by simp only [vCnt, vertexCap] at hcap; omega)]
      exact ⟨he, hf, hm, rfl, rfl, rfl, rfl⟩
  | RL_QUADS =>
      rw [rlVertex3f_quads_accept cfg x y z s he hf hm
        (by simp only [vCnt, vertexCap] at hcap; omega)]
      exact ⟨he, hf, hm, rfl, rfl, rfl, rfl⟩

lemma foldVertices (cfg : Cfg) (ps : List Vec3) :
    ∀ (s : GlState) (t : DrawMode),
      s.exited = false → s.useTempBuffer = false → s.currentDrawMode = t →
      vCnt s t + ps.length ≤ vertexCap cfg t →
      ((ps.foldl (fun st p => rlVertex3f cfg p.x p.y p.z st) s).exited = false ∧
       (ps.foldl (fun st p => rlVertex3f cfg p.x p.y p.z st) s).useTempBuffer = false ∧
       (ps.foldl (fun st p => rlVertex3f cfg p.x p.y p.z st) s).currentDrawMode = t ∧
       vCnt (ps.foldl (fun st p => rlVertex3f cfg p.x p.y p.z st) s) t =
         vCnt s t + ps.length ∧
       (∀ j : ℤ, j < 3 * (vCnt s t : ℤ) →
         verticesOf (ps.foldl (fun st p => rlVertex3f cfg p.x p.y p.z st) s) t j =
           verticesOf s t j) ∧
       (∀ i : ℕ, i < ps.length →
         posEntry (ps.foldl (fun st p => rlVertex3f cfg p.x p.y p.z st) s) t
           (vCnt s t + i) = ps.getD i ⟨0, 0, 0⟩) ∧
       (ps.foldl (fun st p => rlVertex3f cfg p.x p.y p.z st) s).tempBuffer =
         s.tempBuffer ∧
       (ps.foldl (fun st p => rlVertex3f cfg p.x p.y p.z st) s).tempBufferCount =
         s.tempBufferCount) := by
  induction ps with
  | nil =>
      intro s t he hf hm _
      refine ⟨he, hf, hm, by simp, fun j _ => rfl, ?_, rfl, rfl⟩
      intro i h
      cases h
  | cons p ps ih =>
      intro s t he hf hm hcap
      obtain ⟨e1, f1, m1, v1, w1, tb1, tc1⟩ :=
        rlVertex3f_buf cfg p.x p.y p.z s t he hf hm (by simp at hcap; omega)
      rw [List.foldl_cons]
      obtain ⟨e2, f2, m2, v2, lo2, en2, tb2, tc2⟩ :=
        ih (rlVertex3f cfg p.x p.y p.z s) t e1 f1 m1 (by rw [v1]; simp at hcap ⊢; omega)
      refine ⟨e2, f2, m2, ?_, ?_, ?_, by rw [tb2, tb1], by rw [tc2, tc1]⟩
      · rw [v2, v1]
        simp
        omega
      · intro j hj
        rw [lo2 j (by rw [v1]; push_cast; omega), w1]
        exact writeVertex3_lower _ _ _ _ _ j hj
      · intro i h
        rcases Nat.eq_zero_or_pos i with hi | hi
        · subst hi
          have hread := writeVertex3_reads (verticesOf s t) (vCnt s t) p.x p.y p.z
          unfold posEntry
          rw [lo2 _ (by rw [v1]; push_cast; omega), lo2 _ (by rw [v1]; push_cast; omega),
            lo2 _ (by rw [v1]; push_cast; omega)]
          rw [w1]
          simp only [Nat.add_zero]
          rw [hread.1, hread.2.1, hread.2.2]
          rfl
        · obtain ⟨i1, rfl⟩ : ∃ i1, i = i1 + 1 := ⟨i - 1, by omega⟩
          have h2 := en2 i1 (by simp at h; omega)
          rw [v1] at h2
          rw [show vCnt s t + (i1 + 1) = vCnt s t + 1 + i1 by omega]
          rw [h2]
          rfl

lemma reconcileVC_pos (b : VertexColorBuf) :
    (reconcileVC b).vertices = b.vertices ∧ (reconcileVC b).vCounter = b.vCounter := by
  unfold reconcileVC
  split <;> exact ⟨rfl, rfl⟩

lemma reconcileQuads_pos (b : QuadsBuf) :
    (reconcileQuads b).vertices = b.vertices ∧ (reconcileQuads b).vCounter = b.vCounter := by
  unfold reconcileQuads reconcileQuadsTc reconcileQuadsColors
  split <;> split <;> exact ⟨rfl, rfl⟩

lemma reconcileState_pos (s1 : GlState) (t : DrawMode)
    (hm : s1.currentDrawMode = t) :
    verticesOf (reconcileState s1) t = verticesOf s1 t ∧
    vCnt (reconcileState s1) t = vCnt s1 t ∧
    (reconcileState s1).useTempBuffer = s1.useTempBuffer ∧
    (reconcileState s1).tempBufferCount = s1.tempBufferCount ∧
    (reconcileState s1).exited = s1.exited := by
  unfold reconcileState
  rw [hm]
  cases t <;>
    exact ⟨by simp [verticesOf, (reconcileVC_pos _).1, (reconcileQuads_pos _).1],
      by simp [vCnt, (reconcileVC_pos _).2, (reconcileQuads_pos _).2], rfl, rfl, rfl⟩

lemma replayTemp_spec (cfg : Cfg) (s : GlState) (t : DrawMode)
    (he : s.exited = false) (hm : s.currentDrawMode = t)
    (hcap : vCnt s t + s.tempBufferCount ≤ vertexCap cfg t) :
    (replayTemp cfg s).exited = false ∧
    (replayTemp cfg s).useTempBuffer = false ∧
    (replayTemp cfg s).currentDrawMode = t ∧
    (replayTemp cfg s).tempBufferCount = 0 ∧
    vCnt (replayTemp cfg s) t = vCnt s t + s.tempBufferCount ∧
    (∀ i : ℕ, i < s.tempBufferCount →
      posEntry (replayTemp cfg s) t (vCnt s t + i) =
        VectorTransform (currentMatrixVal s) (s.tempBuffer i)) := by
  unfold replayTemp
  dsimp only
  rw [← List.foldl_map
    (fun i : ℕ => if i < s.tempBufferCount
      then VectorTransform (currentMatrixVal s) (s.tempBuffer i) else s.tempBuffer i)
    (fun st p => rlVertex3f cfg p.x p.y p.z st)]
  set sA : GlState := { s with
    tempBuffer := fun i => if i < s.tempBufferCount
      then VectorTransform (currentMatrixVal s) (s.tempBuffer i) else s.tempBuffer i
    useTempBuffer := false } with hsA
  set ps : List Vec3 := (List.range s.tempBufferCount).map
    (fun i : ℕ => if i < s.tempBufferCount
      then VectorTransform (currentMatrixVal s) (s.tempBuffer i) else s.tempBuffer i)
    with hps
  have hlen : ps.length = s.tempBufferCount := by
    rw [hps, List.length_map, List.length_range]
  have hAv : vCnt sA t = vCnt s t := by cases t <;> rfl
  obtain ⟨e2, f2, m2, v2, lo2, en2, tb2, tc2⟩ := foldVertices cfg ps sA t he rfl hm
    (by rw [hlen, hAv]; exact hcap)
  refine ⟨e2, f2, m2, rfl, ?_, ?_⟩
  · show vCnt (ps.foldl (fun st p => rlVertex3f cfg p.x p.y p.z st) sA) t = _
    rw [v2, hAv, hlen]
  · intro i hi
    have h3 := en2 i (by rw [hlen]; exact hi)
    have h4 : ps.getD i ⟨0, 0, 0⟩ =
        VectorTransform (currentMatrixVal s) (s.tempBuffer i) := by
      rw [hps]
      rw [List.getD_eq_getD_get?]
      rw [List.get?_map, List.get?_range (by simpa using hi)]
      simp [hi]
    show posEntry (ps.foldl (fun st p => rlVertex3f cfg p.x p.y p.z st) sA) t
      (vCnt s t + i) = _
    rw [← hAv, h3, h4]

/-- Claim C8: while the deferred-staging flag is raised, each
`rlVertex3f` appends its point to the staging buffer and leaves every
primitive buffer and the ledger untouched; at `rlEnd`, each staged
point is transformed by the matrix current at that moment and replayed
in submission order into the primitive buffer selected by the active
topology, after which the staging count is zero and the flag is
lowered. -/
theorem C8_deferred_staging (cfg : Cfg) :
    (∀ (x y z : ℚ) (s : GlState), s.exited = false → s.useTempBuffer = true →
      (rlVertex3f cfg x y z s).tempBufferCount = s.tempBufferCount + 1 ∧
      (rlVertex3f cfg x y z s).tempBuffer s.tempBufferCount = ⟨x, y, z⟩ ∧
      (∀ i, i ≠ s.tempBufferCount →
        (rlVertex3f cfg x y z s).tempBuffer i = s.tempBuffer i) ∧
      (rlVertex3f cfg x y z s).lines = s.lines ∧
      (rlVertex3f cfg x y z s).triangles = s.triangles ∧
      (rlVertex3f cfg x y z s).quads = s.quads ∧
      (rlVertex3f cfg x y z s).draws = s.draws ∧
      (rlVertex3f cfg x y z s).drawsCounter = s.drawsCounter) ∧
    (∀ (s : GlState) (t : DrawMode), s.exited = false → s.useTempBuffer = true →
      s.currentDrawMode = t →
      vCnt s t + s.tempBufferCount ≤ vertexCap cfg t →
      (rlEnd cfg s).useTempBuffer = false ∧
      (rlEnd cfg s).tempBufferCount = 0 ∧
      vCnt (rlEnd cfg s) t = vCnt s t + s.tempBufferCount ∧
      (∀ i : ℕ, i < s.tempBufferCount →
        posEntry (rlEnd cfg s) t (vCnt s t + i) =
          VectorTransform (currentMatrixVal s) (s.tempBuffer i))) := by
  constructor
  · intro x y z s he hT
    rw [rlVertex3f_temp cfg x y z s he hT]
    refine ⟨rfl, Function.update_same _ _ _, ?_, rfl, rfl, rfl, rfl, rfl⟩
    intro i hi
    exact Function.update_noteq hi _ _
  · intro s t he hT hm hcap
    have hEnd : rlEnd cfg s =
        { reconcileState (replayTemp cfg s) with
          currentDepth := (reconcileState (replayTemp cfg s)).currentDepth + 1 / 20000 } := by
      unfold rlEnd
      rw [if_neg (by simp [he]), if_pos (by simp [hT])]
    obtain ⟨eR, fR, mR, tcR, vR, enR⟩ := replayTemp_spec cfg s t he hm hcap
    obtain ⟨pV, pC, pF, pT, pE⟩ := reconcileState_pos (replayTemp cfg s) t mR
    rw [hEnd]
    refine ⟨?_, ?_, ?_, ?_⟩
    · show (reconcileState (replayTemp cfg s)).useTempBuffer = false
      rw [pF, fR]
    · show (reconcileState (replayTemp cfg s)).tempBufferCount = 0
      rw [pT, tcR]
    · show vCnt (reconcileState (replayTemp cfg s)) t = _
      rw [pC, vR]
    · intro i hi
      have h5 := enR i hi
      show posEntry (reconcileState (replayTemp cfg s)) t (vCnt s t + i) = _
      unfold posEntry at h5 ⊢
      rw [pV]
      exact h5

/-- Concrete state with one staged vertex: begin lines, push the
modelview matrix (raising the staging flag), submit one vertex. -/
def sStage : GlState := rlVertex3f cfgW 1 2 3 (rlPushMatrix (rlBegin .RL_LINES sInit))

/-- Witness for C8 at the concrete staged state `sStage`. -/
theorem C8_witness :
    ((rlPushMatrix (rlBegin .RL_LINES sInit)).exited = false ∧
      (rlPushMatrix (rlBegin .RL_LINES sInit)).useTempBuffer = true ∧
      sStage.tempBufferCount = (rlPushMatrix (rlBegin .RL_LINES sInit)).tempBufferCount + 1) ∧
    (sStage.exited = false ∧ sStage.useTempBuffer = true ∧
      sStage.currentDrawMode = .RL_LINES ∧
      vCnt sStage .RL_LINES + sStage.tempBufferCount ≤ vertexCap cfgW .RL_LINES) ∧
    (rlEnd cfgW sStage).useTempBuffer = false ∧
    (rlEnd cfgW sStage).tempBufferCount = 0 ∧
    vCnt (rlEnd cfgW sStage) .RL_LINES = vCnt sStage .RL_LINES + sStage.tempBufferCount ∧
    posEntry (rlEnd cfgW sStage) .RL_LINES (vCnt sStage .RL_LINES + 0) =
      VectorTransform (currentMatrixVal sStage) (sStage.tempBuffer 0) := by
  have ha := (C8_deferred_staging cfgW).1 1 2 3 (rlPushMatrix (rlBegin .RL_LINES sInit))
    (by decide) (by decide)
  have h := (C8_deferred_staging cfgW).2 sStage .RL_LINES (by decide) (by decide)
    (by decide) (by decide)
  exact ⟨⟨by decide, by decide, ha.1⟩, ⟨by decide, by decide, by decide, by decide⟩,
    h.1, h.2.1, h.2.2.1, h.2.2.2 0 (by decide)⟩

/-! The two ledger invariants of claim C1: the vertex-count sum, and
adjacent-entry texture distinctness for well-formed bind sequences. -/

/-- The operations claim C1 ranges over: texture binds and quad-vertex
submissions. -/
def isLedgerOp : Op → Bool
  | .vertex _ _ _ => true
  | .enableTexture _ => true
  | _ => false

/-- Well-formedness of a bind/vertex sequence: every texture bind is
followed by at least one vertex submission before the next bind.  The
flag records whether a bind is currently awaiting its vertex. -/
def wfBinds : List Op → Bool → Bool
  | [], _ => true
  | .enableTexture _ :: rest, b => if b then false else wfBinds rest true
  | .vertex _ _ _ :: rest, _ => wfBinds rest false
  | _ :: rest, b => wfBinds rest b

lemma rlVertex3f_exited (cfg : Cfg) (x y z : ℚ) (s : GlState)
    (he : s.exited = true) : rlVertex3f cfg x y z s = s := by
  unfold rlVertex3f
  rw [if_pos (by simp [he])]

lemma rlEnableTexture_exited (id : ℕ) (s : GlState)
    (he : s.exited = true) : rlEnableTexture id s = s := by
  unfold rlEnableTexture
  rw [if_pos (by simp [he])]

lemma traceLog_ledger_fields (lt : LogType) (msg : String) (s : GlState) :
    (traceLog lt msg s).draws = s.draws ∧
    (traceLog lt msg s).drawsCounter = s.drawsCounter ∧
    (traceLog lt msg s).currentDrawMode = s.currentDrawMode ∧
    (traceLog lt msg s).useTempBuffer = s.useTempBuffer ∧
    (traceLog lt msg s).quads = s.quads := by
  unfold traceLog
  split
  · exact ⟨rfl, rfl, rfl, rfl, rfl⟩
  · split <;> exact ⟨rfl, rfl, rfl, rfl, rfl⟩

lemma ledger_traceLog (lt : LogType) (msg : String) (s : GlState) :
    ledger (traceLog lt msg s) = ledger s := by
  obtain ⟨h1, h2, _, _, _⟩ := traceLog_ledger_fields lt msg s
  unfold ledger
  rw [h1, h2]

lemma sumVertexCounts_concat (l : List DrawCall) (e : DrawCall) :
    sumVertexCounts (l ++ [e]) = sumVertexCounts l + e.vertexCount := by
  simp [sumVertexCounts]

lemma adjacentDistinct_iff_map (l : List DrawCall) :
    adjacentDistinct l ↔ (l.map DrawCall.textureId).Chain' (· ≠ ·) := by
  unfold adjacentDistinct
  rw [List.chain'_map]

lemma adjacentDistinct_concat (l : List DrawCall) (e : DrawCall)
    (h1 : adjacentDistinct l)
    (h2 : ∀ x ∈ l.getLast?, x.textureId ≠ e.textureId) :
    adjacentDistinct (l ++ [e]) := by
  unfold adjacentDistinct at h1 ⊢
  rw [List.chain'_append]
  refine ⟨h1, List.chain'_singleton e, ?_⟩
  intro x hx y hy
  simp at hy
  subst hy
  exact h2 x hx

/-- One step of the sum invariant: a bind or an (accepted or dropped)
quad-vertex submission preserves the equality between the ledger's
vertex-count sum and the quads buffer's vertex counter. -/
lemma ledgerSum_step (cfg : Cfg) (s : GlState) (o : Op)
    (ho : isLedgerOp o = true)
    (hI : sumVertexCounts (ledger s) = s.quads.vCounter)
    (hd : 1 ≤ s.drawsCounter) (hm : s.currentDrawMode = .RL_QUADS)
    (hf : s.useTempBuffer = false) :
    sumVertexCounts (ledger (stepOp cfg s o)) = (stepOp cfg s o).quads.vCounter ∧
    1 ≤ (stepOp cfg s o).drawsCounter ∧
    (stepOp cfg s o).currentDrawMode = .RL_QUADS ∧
    (stepOp cfg s o).useTempBuffer = false := by
  obtain ⟨n, hn⟩ : ∃ n, s.drawsCounter = n + 1 := ⟨s.drawsCounter - 1, by omega⟩
  have hdec := ledger_eq_append s n hn
  have heta : s.draws (n : ℤ) =
      ⟨(s.draws (n : ℤ)).textureId, (s.draws (n : ℤ)).vertexCount⟩ := rfl
  cases o with
  | vertex x y z =>
      simp only [stepOp]
      by_cases he : s.exited = true
      · rw [rlVertex3f_exited cfg x y z s he]
        exact ⟨hI, hd, hm, hf⟩
      · have he2 : s.exited = false := by
          rcases hb : s.exited
          · rfl
          · exact absurd hb he
        by_cases hcap : s.quads.vCounter < 4 * cfg.MAX_QUADS_BATCH
        · obtain ⟨e1, f1, m1, d1, l1, v1⟩ := quadVertexLedger cfg x y z s
            ((List.range n).map fun i : ℕ => s.draws (i : ℤ))
            (s.draws (n : ℤ)).textureId (s.draws (n : ℤ)).vertexCount
            he2 hf hm hd (by rw [hdec, ← heta]) hcap
          refine ⟨?_, by omega, m1, f1⟩
          rw [l1, v1, sumVertexCounts_concat]
          rw [hdec, sumVertexCounts_concat] at hI
          dsimp only at hI ⊢
          omega
        · rw [rlVertex3f_drop cfg x y z s .RL_QUADS he2 hf hm
            (by simp only [vertexCap, vCnt]; omega)]
          obtain ⟨t1, t2, t3, t4, t5⟩ :=
            traceLog_ledger_fields .ERROR (overflowMsg .RL_QUADS) s
          rw [ledger_traceLog, t5, t2, t3, t4]
          exact ⟨hI, hd, hm, hf⟩
  | enableTexture id =>
      simp only [stepOp]
      by_cases he : s.exited = true
      · rw [rlEnableTexture_exited id s he]
        exact ⟨hI, hd, hm, hf⟩
      · have he2 : s.exited = false := by
          rcases hb : s.exited
          · rfl
          · exact absurd hb he
        by_cases hsame : (s.draws ((s.drawsCounter : ℤ) - 1)).textureId = id
        · rw [rlEnableTexture_same id s hsame]
          exact ⟨hI, hd, hm, hf⟩
        · have hcur : curDraw s = s.draws (n : ℤ) := by
            unfold curDraw
            rw [hn, show (((n + 1 : ℕ) : ℤ) - 1) = (n : ℤ) by push_cast; ring]
          have hne : (s.draws (n : ℤ)).textureId ≠ id := by
            rw [← hcur]
            unfold curDraw
            exact hsame
          by_cases hc : 0 < (s.draws (n : ℤ)).vertexCount
          · obtain ⟨e1, f1, m1, d1, l1, q1⟩ := quadBindAppendLedger id s
              ((List.range n).map fun i : ℕ => s.draws (i : ℤ))
              (s.draws (n : ℤ)).textureId (s.draws (n : ℤ)).vertexCount
              he2 hd (by rw [hdec, ← heta]) hne hc
            refine ⟨?_, by omega, by rw [m1]; exact hm, by rw [f1]; exact hf⟩
            rw [l1, q1, sumVertexCounts_concat, sumVertexCounts_concat]
            rw [hdec] at hI
            rw [sumVertexCounts_concat] at hI
            dsimp only at hI ⊢
            omega
          · have hc0 : (s.draws (n : ℤ)).vertexCount = 0 := by omega
            obtain ⟨e1, f1, m1, d1, l1, q1⟩ := quadBindReuseLedger id s
              ((List.range n).map fun i : ℕ => s.draws (i : ℤ))
              (s.draws (n : ℤ)).textureId
              he2 hd (by rw [hdec, ← hc0, ← heta]) hne
            refine ⟨?_, by omega, by rw [m1]; exact hm, by rw [f1]; exact hf⟩
            rw [l1, q1, sumVertexCounts_concat]
            rw [hdec] at hI
            rw [sumVertexCounts_concat] at hI
            dsimp only at hI ⊢
            omega
  | matrixMode m => cases ho
  | pushMatrix => cases ho
  | popMatrix => cases ho
  | loadIdentity => cases ho
  | begin m => cases ho
  | color r g b a => cases ho
  | texcoord u v => cases ho
  | stop => cases ho
  | draw => cases ho

lemma ledgerSum_run (cfg : Cfg) :
    ∀ (ops : List Op) (s : GlState),
      (∀ o ∈ ops, isLedgerOp o = true) →
      sumVertexCounts (ledger s) = s.quads.vCounter →
      1 ≤ s.drawsCounter → s.currentDrawMode = .RL_QUADS →
      s.useTempBuffer = false →
      sumVertexCounts (ledger (runOps cfg ops s)) = (runOps cfg ops s).quads.vCounter := by
  intro ops
  induction ops with
  | nil => intro s _ hI _ _ _; exact hI
  | cons o rest ih =>
      intro s hall hI hd hm hf
      have hallr : ∀ q ∈ rest, isLedgerOp q = true := fun q hq => hall q (by simp [hq])
      obtain ⟨hI1, hd1, hm1, hf1⟩ :=
        ledgerSum_step cfg s o (hall o (by simp)) hI hd hm hf
      exact ih (stepOp cfg s o) hallr hI1 hd1 hm1 hf1

/-- One adjacency-invariant case analysis is folded into this run-level
induction: well-formed bind/vertex sequences keep consecutive ledger
entries' textures distinct. -/
lemma ledgerAdj_run (cfg : Cfg) :
    ∀ (ops : List Op) (b : Bool) (s : GlState),
      (∀ o ∈ ops, isLedgerOp o = true) →
      wfBinds ops b = true →
      adjacentDistinct (ledger s) →
      1 ≤ s.drawsCounter → s.currentDrawMode = .RL_QUADS →
      s.useTempBuffer = false →
      (b = false → s.exited = true ∨ 0 < (curDraw s).vertexCount ∨ s.drawsCounter = 1) →
      adjacentDistinct (ledger (runOps cfg ops s)) := by
  intro ops
  induction ops with
  | nil => intro b s _ _ hA _ _ _ _; exact hA
  | cons o rest ih =>
      intro b s hall hwf hA hd hm hf hK
      have hallr : ∀ q ∈ rest, isLedgerOp q = true := fun q hq => hall q (by simp [hq])
      obtain ⟨n, hn⟩ : ∃ n, s.drawsCounter = n + 1 := ⟨s.drawsCounter - 1, by omega⟩
      have hdec := ledger_eq_append s n hn
      have heta : s.draws (n : ℤ) =
          ⟨(s.draws (n : ℤ)).textureId, (s.draws (n : ℤ)).vertexCount⟩ := rfl
      have hcur : curDraw s = s.draws (n : ℤ) := by
        unfold curDraw
        rw [hn, show (((n + 1 : ℕ) : ℤ) - 1) = (n : ℤ) by push_cast; ring]
      cases o with
      | vertex x y z =>
          have hwf2 : wfBinds rest false = true := hwf
          have hstep : runOps cfg (Op.vertex x y z :: rest) s =
              runOps cfg rest (rlVertex3f cfg x y z s) := rfl
          rw [hstep]
          by_cases he : s.exited = true
          · rw [rlVertex3f_exited cfg x y z s he]
            exact ih false s hallr hwf2 hA hd hm hf (fun _ => Or.inl he)
          · have he2 : s.exited = false := by
              rcases hb : s.exited
              · rfl
              · exact absurd hb he
            by_cases hcap : s.quads.vCounter < 4 * cfg.MAX_QUADS_BATCH
            · obtain ⟨e1, f1, m1, d1, l1, v1⟩ := quadVertexLedger cfg x y z s
                ((List.range n).map fun i : ℕ => s.draws (i : ℤ))
                (s.draws (n : ℤ)).textureId (s.draws (n : ℤ)).vertexCount
                he2 hf hm hd (by rw [hdec, ← heta]) hcap
              refine ih false (rlVertex3f cfg x y z s) hallr hwf2 ?_ (by omega) m1 f1 ?_
              · rw [l1]
                rw [adjacentDistinct_iff_map]
                have hmap : ((((List.range n).map fun i : ℕ => s.draws (i : ℤ)) ++
                    [(⟨(s.draws (n : ℤ)).textureId,
                      (s.draws (n : ℤ)).vertexCount + 1⟩ : DrawCall)]).map
                      DrawCall.textureId) =
                    (ledger s).map DrawCall.textureId := by
                  rw [hdec]
                  simp
                rw [hmap, ← adjacentDistinct_iff_map]
                exact hA
              · intro _
                right
                left
                have hcur2 := curDraw_of_ledger (rlVertex3f cfg x y z s) n
                  (by rw [d1, hn])
                  ((List.range n).map fun i : ℕ => s.draws (i : ℤ))
                  ⟨(s.draws (n : ℤ)).textureId, (s.draws (n : ℤ)).vertexCount + 1⟩ l1
                rw [hcur2]
                exact Nat.succ_pos _
            · rw [rlVertex3f_drop cfg x y z s .RL_QUADS he2 hf hm
                (by simp only [vertexCap, vCnt]; omega)]
              obtain ⟨t1, t2, t3, t4, t5⟩ :=
                traceLog_ledger_fields .ERROR (overflowMsg .RL_QUADS) s
              refine ih false _ hallr hwf2 (by rw [ledger_traceLog]; exact hA)
                (by rw [t2]; omega) (by rw [t3]; exact hm) (by rw [t4]; exact hf) ?_
              intro _
              left
              unfold traceLog
              rw [if_neg (by simp [he2]), if_pos rfl]
      | enableTexture id =>
          have hb0 : b = false := by
            rcases hbv : b
            · rfl
            · rw [hbv] at hwf
              unfold wfBinds at hwf
              rw [if_pos rfl] at hwf
              cases hwf
          have hwf2 : wfBinds rest true = true := by
            rw [hb0] at hwf
            unfold wfBinds at hwf
            rw [if_neg (by simp)] at hwf
            exact hwf
          have hstep : runOps cfg (Op.enableTexture id :: rest) s =
              runOps cfg rest (rlEnableTexture id s) := rfl
          rw [hstep]
          by_cases he : s.exited = true
          · rw [rlEnableTexture_exited id s he]
            exact ih true s hallr hwf2 hA hd hm hf (by intro h; cases h)
          · have he2 : s.exited = false := by
              rcases hb : s.exited
              · rfl
              · exact absurd hb he
            by_cases hsame : (s.draws ((s.drawsCounter : ℤ) - 1)).textureId = id
            · rw [rlEnableTexture_same id s hsame]
              exact ih true s hallr hwf2 hA hd hm hf (by intro h; cases h)
            · have hne : (s.draws (n : ℤ)).textureId ≠ id := by
                rw [← hcur]
                unfold curDraw
                exact hsame
              by_cases hcgt : 0 < (s.draws (n : ℤ)).vertexCount
              · have hpos := hcgt
                obtain ⟨e1, f1, m1, d1, l1, q1⟩ := quadBindAppendLedger id s
                  ((List.range n).map fun i : ℕ => s.draws (i : ℤ))
                  (s.draws (n : ℤ)).textureId (s.draws (n : ℤ)).vertexCount
                  he2 hd (by rw [hdec, ← heta]) hne hpos
                refine ih true (rlEnableTexture id s) hallr hwf2 ?_ (by omega)
                  (by rw [m1]; exact hm) (by rw [f1]; exact hf) (by intro h; cases h)
                rw [l1]
                rw [← heta, ← hdec]
                refine adjacentDistinct_concat (ledger s) ⟨id, 0⟩ hA ?_
                intro x hx
                rw [hdec] at hx
                rw [List.getLast?_concat] at hx
                simp at hx
                subst hx
                exact hne
              · have hc0 : (s.draws (n : ℤ)).vertexCount = 0 := by omega
                have hn0 : n = 0 := by
                  rcases hK hb0 with hdead | hpos | hone
                  · rw [hdead] at he2
                    cases he2
                  · rw [hcur] at hpos
                    omega
                  · omega
                obtain ⟨e1, f1, m1, d1, l1, q1⟩ := quadBindReuseLedger id s
                  ((List.range n).map fun i : ℕ => s.draws (i : ℤ))
                  (s.draws (n : ℤ)).textureId
                  he2 hd (by rw [hdec, ← hc0, ← heta]) hne
                refine ih true (rlEnableTexture id s) hallr hwf2 ?_ (by omega)
                  (by rw [m1]; exact hm) (by rw [f1]; exact hf) (by intro h; cases h)
                rw [l1]
                rw [hn0]
                simp [adjacentDistinct]
      | matrixMode m =>
          exact absurd (hall (Op.matrixMode m) (by simp)) (by simp [isLedgerOp])
      | pushMatrix =>
          exact absurd (hall Op.pushMatrix (by simp)) (by simp [isLedgerOp])
      | popMatrix =>
          exact absurd (hall Op.popMatrix (by simp)) (by simp [isLedgerOp])
      | loadIdentity =>
          exact absurd (hall Op.loadIdentity (by simp)) (by simp [isLedgerOp])
      | begin m =>
          exact absurd (hall (Op.begin m) (by simp)) (by simp [isLedgerOp])
      | color r g b a =>
          exact absurd (hall (Op.color r g b a) (by simp)) (by simp [isLedgerOp])
      | texcoord u v =>
          exact absurd (hall (Op.texcoord u v) (by simp)) (by simp [isLedgerOp])
      | stop =>
          exact absurd (hall Op.stop (by simp)) (by simp [isLedgerOp])
      | draw =>
          exact absurd (hall Op.draw (by simp)) (by simp [isLedgerOp])

/-- Claim C1 (amended): for every sequence of texture binds and
quad-vertex submissions since the last flush, the sum of the ledger
entries' vertex counts equals the quads buffer's vertex counter (the
number of accepted submissions, which equals the number of submissions
whenever the capacity is not exceeded); and consecutive ledger entries
never share a texture handle PROVIDED every bind is followed by at
least one vertex submission before the next bind.  Without that
proviso the invariant fails: binding a texture, drawing, binding
another texture and immediately binding the first again reuses the
empty entry and creates two consecutive entries with the same
texture (see the counterexample). -/
theorem C1_ledger_sum_and_merging (cfg : Cfg) (white : ℕ) (junk : ℤ → ℕ)
    (junkF : ℤ → ℚ) (ops : List Op)
    (hall : ∀ o ∈ ops, isLedgerOp o = true) :
    sumVertexCounts (ledger (shapeRun cfg .RL_QUADS ops white junk junkF)) =
      (shapeRun cfg .RL_QUADS ops white junk junkF).quads.vCounter ∧
    (wfBinds ops false = true →
      adjacentDistinct (ledger (shapeRun cfg .RL_QUADS ops white junk junkF))) ∧
    (countV ops ≤ 4 * cfg.MAX_QUADS_BATCH →
      (shapeRun cfg .RL_QUADS ops white junk junkF).quads.vCounter = countV ops) := by
  obtain ⟨e0, f0, m0, d0, v0, l0⟩ := begin_quads_facts cfg white junk junkF
  have hrun : shapeRun cfg .RL_QUADS ops white junk junkF =
      runOps cfg ops (rlBegin .RL_QUADS (initialState cfg white junk junkF)) := rfl
  refine ⟨?_, ?_, ?_⟩
  · rw [hrun]
    exact ledgerSum_run cfg ops _ hall
      (by rw [l0, v0]; simp [sumVertexCounts]) (by omega) m0 f0
  · intro hwf
    rw [hrun]
    exact ledgerAdj_run cfg ops false _ hall hwf
      (by rw [l0]; simp [adjacentDistinct]) (by omega) m0 f0
      (fun _ => Or.inr (Or.inr d0))
  · intro hcap
    have hall2 : ∀ o ∈ ops, isShapeOp o = true := by
      intro o ho
      have h := hall o ho
      cases o <;> first | rfl | cases h
    have h := shapeRun_spec cfg .RL_QUADS ops white junk junkF hall2 hcap
    exact h.2.2.2.2.1

/-- The bind/vertex sequence refuting the unconditional adjacency
invariant: bind 5, one quad, bind 7, bind 5 again (with no vertex in
between), one quad. -/
def opsAdj : List Op :=
  [.enableTexture 5] ++ List.replicate 4 (.vertex 0 0 0) ++
  [.enableTexture 7] ++ [.enableTexture 5] ++ List.replicate 4 (.vertex 0 0 0)

lemma opsAdj_split :
    shapeRun cfgW .RL_QUADS opsAdj 1 (fun _ => 0) (fun _ => 0) =
      runOps cfgW (List.replicate 4 (.vertex 0 0 0)) (rlEnableTexture 5
        (rlEnableTexture 7 (runOps cfgW (List.replicate 4 (.vertex 0 0 0))
          (rlEnableTexture 5 (rlBegin .RL_QUADS
            (initialState cfgW 1 (fun _ => 0) (fun _ => 0))))))) := by
  unfold shapeRun opsAdj
  rw [runOps_append, runOps_append, runOps_append, runOps_append]
  simp only [runOps_singleton, stepOp]

/-- Counterexample to claim C1 as stated: after bind 5 / 4 vertices /
bind 7 / bind 5 / 4 vertices, the ledger is `[(5,4), (5,4)]` — two
consecutive entries with equal texture handles, because the switch back
to texture 5 reused the empty `(7,0)` entry instead of merging. -/
theorem C1_counterexample :
    ledger (shapeRun cfgW .RL_QUADS opsAdj 1 (fun _ => 0) (fun _ => 0)) =
      [⟨5, 4⟩, ⟨5, 4⟩] ∧
    ¬ adjacentDistinct (ledger (shapeRun cfgW .RL_QUADS opsAdj 1
      (fun _ => 0) (fun _ => 0))) := by
  obtain ⟨e0, f0, m0, d0, v0, l0⟩ := begin_quads_facts cfgW 1 (fun _ => 0) (fun _ => 0)
  rw [opsAdj_split]
  set s0 := rlBegin .RL_QUADS (initialState cfgW 1 (fun _ => 0) (fun _ => 0)) with hs0
  have p1 := quadBindReuseLedger 5 s0 [] 1 e0 (by omega) l0 (by decide)
  obtain ⟨e1, f1, m1, d1, l1, q1⟩ := p1
  have p2 := quadVerticesLedger cfgW 4 (rlEnableTexture 5 s0) [] 5 0 e1
    (by rw [f1]; exact f0) (by rw [m1]; exact m0) (by omega) l1
    (by rw [q1, v0]; decide)
  obtain ⟨e2, f2, m2, d2, l2, v2⟩ := p2
  set s2 := runOps cfgW (List.replicate 4 (.vertex 0 0 0)) (rlEnableTexture 5 s0)
    with hs2
  have p3 := quadBindAppendLedger 7 s2 [] 5 4 e2 (by omega)
    (by rw [l2]) (by decide) (by decide)
  obtain ⟨e3, f3, m3, d3, l3, q3⟩ := p3
  have p4 := quadBindReuseLedger 5 (rlEnableTexture 7 s2) [⟨5, 4⟩] 7 e3 (by omega)
    (by rw [l3]; rfl) (by decide)
  obtain ⟨e4, f4, m4, d4, l4, q4⟩ := p4
  have p5 := quadVerticesLedger cfgW 4 (rlEnableTexture 5 (rlEnableTexture 7 s2))
    [⟨5, 4⟩] 5 0 e4
    (by rw [f4, f3]; exact f2) (by rw [m4, m3]; exact m2) (by omega) l4
    (by rw [q4, q3, v2, q1, v0]; decide)
  obtain ⟨e5, f5, m5, d5, l5, v5⟩ := p5
  rw [l5]
  refine ⟨rfl, fun h => ?_⟩
  rw [adjacentDistinct_iff_map] at h
  simp [List.chain_cons] at h

/-- Witness for C1 at the concrete well-formed scenario sequence. -/
theorem C1_witness :
    ((∀ o ∈ scenarioOps 5 7, isLedgerOp o = true) ∧
      wfBinds (scenarioOps 5 7) false = true ∧
      countV (scenarioOps 5 7) ≤ 4 * cfgW.MAX_QUADS_BATCH) ∧
    sumVertexCounts (ledger (shapeRun cfgW .RL_QUADS (scenarioOps 5 7) 1
        (fun _ => 0) (fun _ => 0))) =
      (shapeRun cfgW .RL_QUADS (scenarioOps 5 7) 1
        (fun _ => 0) (fun _ => 0)).quads.vCounter ∧
    adjacentDistinct (ledger (shapeRun cfgW .RL_QUADS (scenarioOps 5 7) 1
      (fun _ => 0) (fun _ => 0))) ∧
    (shapeRun cfgW .RL_QUADS (scenarioOps 5 7) 1
      (fun _ => 0) (fun _ => 0)).quads.vCounter = countV (scenarioOps 5 7) := by
  have h := C1_ledger_sum_and_merging cfgW 1 (fun _ => 0) (fun _ => 0)
    (scenarioOps 5 7) (by decide)
  have hwf : wfBinds (scenarioOps 5 7) false = true := by decide
  have hcap : countV (scenarioOps 5 7) ≤ 4 * cfgW.MAX_QUADS_BATCH := by decide
  with_reducible exact ⟨⟨by decide, hwf, hcap⟩, h.1, h.2.1 hwf, h.2.2 hcap⟩

end Rlgl
